import Mathlib

/-!
Verification development for the session-recording / replay-verification
engine of this repository.  JavaScript structured values are modelled by
the inductive type `Json`; each JS function under scrutiny is translated
into a total executable Lean function kept as close to the source as the
shallow embedding allows.  JS `===` on the values that actually reach the
comparison code coincides with structural equality (the differ only ever
hands primitives, or structurally unequal trees, to it) and is modelled by
decidable equality on `Json`.
-/

/-- A JavaScript structured value: `null`, booleans, numbers (the code under
verification only manipulates integral numbers), strings, arrays, and
objects represented as insertion-ordered association lists. -/
inductive Json where
  | null : Json
  | bool (b : Bool) : Json
  | num (n : Int) : Json
  | str (s : String) : Json
  | arr (elems : List Json) : Json
  | obj (fields : List (String × Json)) : Json
deriving Repr

mutual

/-- Structural equality test on `Json`. -/
def Json.beq : Json → Json → Bool
  | .null, .null => true
  | .bool a, .bool b => a == b
  | .num a, .num b => a == b
  | .str a, .str b => a == b
  | .arr xs, .arr ys => Json.beqList xs ys
  | .obj xs, .obj ys => Json.beqFields xs ys
  | _, _ => false

/-- Elementwise equality test on `Json` lists. -/
def Json.beqList : List Json → List Json → Bool
  | [], [] => true
  | x :: xs, y :: ys => Json.beq x y && Json.beqList xs ys
  | _, _ => false

/-- Entrywise equality test on field lists. -/
def Json.beqFields : List (String × Json) → List (String × Json) → Bool
  | [], [] => true
  | (k, v) :: xs, (l, w) :: ys => k == l && Json.beq v w && Json.beqFields xs ys
  | _, _ => false

end

mutual

theorem Json.beq_refl : ∀ a : Json, Json.beq a a = true
  | .null => rfl
  | .bool a => by simp [Json.beq]
  | .num a => by simp [Json.beq]
  | .str a => by simp [Json.beq]
  | .arr xs => by simp [Json.beq, Json.beqList_refl xs]
  | .obj xs => by simp [Json.beq, Json.beqFields_refl xs]

theorem Json.beqList_refl : ∀ xs : List Json, Json.beqList xs xs = true
  | [] => rfl
  | x :: xs => by simp [Json.beqList, Json.beq_refl x, Json.beqList_refl xs]

theorem Json.beqFields_refl : ∀ xs : List (String × Json), Json.beqFields xs xs = true
  | [] => rfl
  | (k, v) :: xs => by
      simp [Json.beqFields, Json.beq_refl v, Json.beqFields_refl xs]

end

mutual

theorem Json.eq_of_beq : ∀ a b : Json, Json.beq a b = true → a = b
  | .null, .null, _ => rfl
  | .null, .bool _, h | .null, .num _, h | .null, .str _, h
  | .null, .arr _, h | .null, .obj _, h => by simp [Json.beq] at h
  | .bool _, .null, h | .bool _, .num _, h | .bool _, .str _, h
  | .bool _, .arr _, h | .bool _, .obj _, h => by simp [Json.beq] at h
  | .bool a, .bool b, h => by simp [Json.beq] at h; simp [h]
  | .num _, .null, h | .num _, .bool _, h | .num _, .str _, h
  | .num _, .arr _, h | .num _, .obj _, h => by simp [Json.beq] at h
  | .num a, .num b, h => by simp [Json.beq] at h; simp [h]
  | .str _, .null, h | .str _, .bool _, h | .str _, .num _, h
  | .str _, .arr _, h | .str _, .obj _, h => by simp [Json.beq] at h
  | .str a, .str b, h => by simp [Json.beq] at h; simp [h]
  | .arr _, .null, h | .arr _, .bool _, h | .arr _, .num _, h
  | .arr _, .str _, h | .arr _, .obj _, h => by simp [Json.beq] at h
  | .arr xs, .arr ys, h => by
      simp only [Json.beq] at h
      simp [Json.eqList_of_beq xs ys h]
  | .obj _, .null, h | .obj _, .bool _, h | .obj _, .num _, h
  | .obj _, .str _, h | .obj _, .arr _, h => by simp [Json.beq] at h
  | .obj xs, .obj ys, h => by
      simp only [Json.beq] at h
      simp [Json.eqFields_of_beq xs ys h]

theorem Json.eqList_of_beq : ∀ xs ys : List Json, Json.beqList xs ys = true → xs = ys
  | [], [], _ => rfl
  | [], _ :: _, h => by simp [Json.beqList] at h
  | _ :: _, [], h => by simp [Json.beqList] at h
  | x :: xs, y :: ys, h => by
      simp only [Json.beqList, Bool.and_eq_true] at h
      rw [Json.eq_of_beq x y h.1, Json.eqList_of_beq xs ys h.2]

theorem Json.eqFields_of_beq :
    ∀ xs ys : List (String × Json), Json.beqFields xs ys = true → xs = ys
  | [], [], _ => rfl
  | [], _ :: _, h => by simp [Json.beqFields] at h
  | _ :: _, [], h => by simp [Json.beqFields] at h
  | (k, v) :: xs, (l, w) :: ys, h => by
      simp only [Json.beqFields, Bool.and_eq_true, beq_iff_eq] at h
      rw [h.1.1, Json.eq_of_beq v w h.1.2, Json.eqFields_of_beq xs ys h.2]

end

instance : DecidableEq Json := fun a b =>
  decidable_of_iff (Json.beq a b = true)
    ⟨Json.eq_of_beq a b, fun h => h ▸ Json.beq_refl a⟩

namespace Json

/-- JS `typeof` on a `Json` value.  `typeof null`, `typeof []` and
`typeof {}` are all the string `"object"`. -/
def jsTypeof : Json → String
  | .null => "object"
  | .bool _ => "boolean"
  | .num _ => "number"
  | .str _ => "string"
  | .arr _ => "object"
  | .obj _ => "object"

/-- The `realTypeOf` classification used by the `deep-diff` library:
it distinguishes `"null"`, `"array"` and `"object"`. -/
def realTypeOf : Json → String
  | .null => "null"
  | .bool _ => "boolean"
  | .num _ => "number"
  | .str _ => "string"
  | .arr _ => "array"
  | .obj _ => "object"

/-- JS truthiness of a value: `null`, `false`, `0` and `""` are falsy. -/
def jsTruthy : Json → Bool
  | .null => false
  | .bool b => b
  | .num n => n != 0
  | .str s => s != ""
  | .arr _ => true
  | .obj _ => true

end Json

/-- First value stored under a key in a JS object (assoc list). -/
def jsLookup (kvs : List (String × Json)) (k : String) : Option Json :=
  (kvs.find? (fun p => p.1 == k)).map Prod.snd

/-- Whether a JS object has a key (`Object.keys(o).includes(k)`). -/
def jsHasKey (kvs : List (String × Json)) (k : String) : Bool :=
  kvs.any (fun p => p.1 == k)

/-- JS `String.prototype.includes`: `sub` occurs somewhere in `s`
(the empty string is contained in every string). -/
def jsIncludes (s sub : String) : Bool :=
  decide (sub.toList <:+: s.toList)

/-- ASCII lowercasing of one character (`toLowerCase` on the header and
field names handled by the code, which are ASCII). -/
def asciiLower (c : Char) : Char :=
  if 'A' ≤ c ∧ c ≤ 'Z' then Char.ofNat (c.toNat + 32) else c

/-- JS `String.prototype.toLowerCase` on ASCII strings. -/
def jsToLower (s : String) : String :=
  String.mk (s.toList.map asciiLower)

/-- JS `String.prototype.startsWith`. -/
def jsStartsWith (s pre : String) : Bool :=
  pre.toList.isPrefixOf s.toList

/-- JS `path.split('.')` (split on a single dot). -/
def splitDotAux : List Char → List Char → List String
  | acc, [] => [String.mk acc.reverse]
  | acc, c :: rest =>
      if c = '.' then String.mk acc.reverse :: splitDotAux [] rest
      else splitDotAux (c :: acc) rest

/-- JS `s.split('.')`. -/
def splitDot (s : String) : List String :=
  splitDotAux [] s.toList

/-- JS `String(x)` on the primitive values the array sorter feeds it. -/
def jsPrimToString : Json → String
  | .null => "null"
  | .bool b => if b then "true" else "false"
  | .num n => toString n
  | .str s => s
  | .arr _ => ""
  | .obj _ => ""

/-! ## The `deep-diff` library

`deepDiff.diff` walks two values.  When their `realTypeOf` classifications
differ it emits a single edit (`E`) record; arrays are walked index by
index for the common prefix (emitting ordinary records whose path ends in
the index) with `A`-records for surplus elements on either side; objects
emit `D` for keys only on the left, `N` for keys only on the right, and
recurse on shared keys; unequal leaves yield `E`.  Paths are JS arrays of
keys/indices; `path.join('.')` is modelled by joining the rendered parts
with dots. -/

/-- One difference record as produced by `deep-diff` (and consumed by the
verifier's `switch (diff.kind)`).  `arrE` (an `A`-record carrying an edited
item) is representable — the verifier has a branch for it — although the
walk below never produces it. -/
inductive Diff where
  | n (path : List String) (rhs : Json)
  | d (path : List String) (lhs : Json)
  | e (path : List String) (lhs rhs : Json)
  | arrD (path : List String) (index : Nat) (lhs : Json)
  | arrN (path : List String) (index : Nat) (rhs : Json)
  | arrE (path : List String) (index : Nat) (lhs rhs : Json)
deriving Repr, DecidableEq

mutual

/-- The recursive walk of `deepDiff.diff` on two values already known to be
present on both sides. -/
def computeDiff (path : List String) (lhs rhs : Json) : List Diff :=
  if Json.realTypeOf lhs ≠ Json.realTypeOf rhs then [Diff.e path lhs rhs]
  else
    match lhs, rhs with
    | .arr xs, .arr ys => diffArr path 0 xs ys
    | .obj kvs1, .obj kvs2 =>
        diffFieldsL path kvs1 kvs2 ++
          (kvs2.filterMap (fun p =>
            if jsHasKey kvs1 p.1 then none else some (Diff.n (path ++ [p.1]) p.2)))
    | l, r => if l ≠ r then [Diff.e path l r] else []

/-- Array walk: elementwise recursion on the common prefix, `A`-records with
deleted items for surplus left elements and with new items for surplus
right elements. -/
def diffArr (path : List String) (i : Nat) : List Json → List Json → List Diff
  | [], [] => []
  | [], y :: ys => Diff.arrN path i y :: diffArr path (i + 1) [] ys
  | x :: xs, [] => Diff.arrD path i x :: diffArr path (i + 1) xs []
  | x :: xs, y :: ys =>
      computeDiff (path ++ [toString i]) x y ++ diffArr path (i + 1) xs ys

/-- Object walk over the left-hand keys: shared keys recurse, keys missing
on the right yield `D` records. -/
def diffFieldsL (path : List String) :
    List (String × Json) → List (String × Json) → List Diff
  | [], _ => []
  | (k, v) :: rest, kvs2 =>
      (match jsLookup kvs2 k with
        | some w => computeDiff (path ++ [k]) v w
        | none => [Diff.d (path ++ [k]) v]) ++ diffFieldsL path rest kvs2

end

/-- `diff.path.join('.')`. -/
def joinPath (path : List String) : String :=
  String.intercalate "." path

namespace Diff

/-- The joined path of a difference record, as the verifier computes it
(`const path = diff.path.join('.')`). -/
def pathStr : Diff → String
  | .n p _ => joinPath p
  | .d p _ => joinPath p
  | .e p _ _ => joinPath p
  | .arrD p _ _ => joinPath p
  | .arrN p _ _ => joinPath p
  | .arrE p _ _ _ => joinPath p

end Diff

/-! ## A model of `JSON.parse`

`normalizeForComparison` in the base verifier parses a string body when it
starts with a brace or bracket, keeping the string if parsing fails.  The
parser below covers the JSON forms expressible in the `Json` value space
(numbers restricted to integers); on anything else it returns `none`,
which the caller treats exactly like a `JSON.parse` exception. -/

/-- Whitespace skipped by the JSON grammar. -/
def isJsonWs (c : Char) : Bool :=
  c == ' ' || c == '\t' || c == '\n' || c == '\r'

/-- Decode one string-escape character. -/
def jsonEscChar : Char → Option Char
  | 'n' => some '\n'
  | 'r' => some '\r'
  | 't' => some '\t'
  | '/' => some '/'
  | '"' => some '"'
  | '\\' => some '\\'
  | _ => none

/-- Parse the remainder of a JSON string literal (after the opening quote),
returning the decoded characters and the rest of the input. -/
def parseStrAux : List Char → Option (List Char × List Char)
  | [] => none
  | '"' :: rest => some ([], rest)
  | '\\' :: c :: rest => do
      let e ← jsonEscChar c
      let (cs, r) ← parseStrAux rest
      some (e :: cs, r)
  | c :: rest => do
      if c == '\\' then none
      else
        let (cs, r) ← parseStrAux rest
        some (c :: cs, r)

/-- Split a leading run of decimal digits from the input. -/
def takeDigits : List Char → List Char × List Char
  | c :: rest =>
      if c.isDigit then
        let (ds, r) := takeDigits rest
        (c :: ds, r)
      else ([], c :: rest)
  | [] => ([], [])

/-- Decimal value of a digit run. -/
def digitsToNat (ds : List Char) : Nat :=
  ds.foldl (fun n c => n * 10 + (c.toNat - Char.toNat '0')) 0

mutual

/-- Fuel-indexed recursive-descent parser for a JSON value; the fuel is
instantiated with the input length, which bounds the nesting depth. -/
def parseJsonVal : Nat → List Char → Option (Json × List Char)
  | 0, _ => none
  | fuel + 1, cs =>
      match cs.dropWhile isJsonWs with
      | 'n' :: 'u' :: 'l' :: 'l' :: rest => some (Json.null, rest)
      | 't' :: 'r' :: 'u' :: 'e' :: rest => some (Json.bool true, rest)
      | 'f' :: 'a' :: 'l' :: 's' :: 'e' :: rest => some (Json.bool false, rest)
      | '"' :: rest => (parseStrAux rest).map (fun p => (Json.str (String.mk p.1), p.2))
      | '[' :: rest =>
          (match rest.dropWhile isJsonWs with
            | ']' :: r2 => some (Json.arr [], r2)
            | _ => (parseJsonElems fuel rest).map (fun p => (Json.arr p.1, p.2)))
      | '\x7b' :: rest =>
          (match rest.dropWhile isJsonWs with
            | '\x7d' :: r2 => some (Json.obj [], r2)
            | _ => (parseJsonFields fuel rest).map (fun p => (Json.obj p.1, p.2)))
      | '-' :: rest =>
          (match takeDigits rest with
            | ([], _) => none
            | (ds, r) => some (Json.num (-(digitsToNat ds : Int)), r))
      | c :: rest =>
          if c.isDigit then
            let (ds, r) := takeDigits (c :: rest)
            some (Json.num (digitsToNat ds), r)
          else none
      | [] => none

/-- Parse one-or-more comma-separated array elements up to `]`. -/
def parseJsonElems : Nat → List Char → Option (List Json × List Char)
  | 0, _ => none
  | fuel + 1, cs => do
      let (v, r) ← parseJsonVal fuel cs
      match r.dropWhile isJsonWs with
      | ',' :: r2 => do
          let (vs, r3) ← parseJsonElems fuel r2
          some (v :: vs, r3)
      | ']' :: r2 => some ([v], r2)
      | _ => none

/-- Parse one-or-more `"key": value` members up to the closing brace. -/
def parseJsonFields : Nat → List Char → Option (List (String × Json) × List Char)
  | 0, _ => none
  | fuel + 1, cs =>
      match cs.dropWhile isJsonWs with
      | '"' :: rest => do
          let (k, r) ← parseStrAux rest
          match r.dropWhile isJsonWs with
          | ':' :: r2 => do
              let (v, r3) ← parseJsonVal fuel r2
              match r3.dropWhile isJsonWs with
              | ',' :: r4 => do
                  let (fs, r5) ← parseJsonFields fuel r4
                  some ((String.mk k, v) :: fs, r5)
              | '\x7d' :: r4 => some ([(String.mk k, v)], r4)
              | _ => none
          | _ => none
      | _ => none

end

/-- `JSON.parse` on the modelled value space: `none` plays the role of the
thrown `SyntaxError`. -/
def jsonParse (s : String) : Option Json :=
  match parseJsonVal (s.length + 1) s.toList with
  | some (v, r) => if (r.dropWhile isJsonWs).isEmpty then some v else none
  | none => none

/-! ## The base verifier (`SnapshotVerifier`, part_004)

Data and functions of the base `SnapshotVerifier`: response-level
normalization, header comparison, body comparison via `deep-diff`, the
per-interaction verdict, and the per-session summary loop of
`replayAgainstContract`. -/

/-- Constructor options of the base verifier that the comparison functions
consult.  `ignoreFields` patterns are plain strings (the `RegExp` branch of
`shouldIgnoreField` is never exercised: no configuration in the repository
supplies a regular expression). -/
structure BaseOptions where
  ignoreHeaders : List String := ["date", "content-length", "etag", "connection"]
  ignoreFields : List String := []
deriving Repr

/-- `shouldIgnoreField`: a dotted path is ignored when it equals a pattern
or extends it by a dot. -/
def shouldIgnoreField (opts : BaseOptions) (fieldPath : String) : Bool :=
  opts.ignoreFields.any (fun pat => fieldPath == pat || jsStartsWith fieldPath (pat ++ "."))

/-- An entry of `bodyDiffs.added`. -/
structure AddedEntry where
  path : String
  value : Json
deriving Repr, DecidableEq

/-- An entry of `bodyDiffs.removed`. -/
structure RemovedEntry where
  path : String
  value : Json
deriving Repr, DecidableEq

/-- An entry of `bodyDiffs.modified`. -/
structure ModifiedEntry where
  path : String
  original : Json
  replayed : Json
deriving Repr, DecidableEq

/-- An entry of `bodyDiffs.incompatible`; the optional fields mirror the
`value` / `original` / `replayed` properties the source attaches. -/
structure IncompatEntry where
  path : String
  reason : String
  value : Option Json := none
  original : Option Json := none
  replayed : Option Json := none
deriving Repr, DecidableEq

/-- The `${path}[${diff.index}]` path used for `A`-kind records. -/
def arrayPathStr (path : List String) (i : Nat) : String :=
  joinPath path ++ "[" ++ toString i ++ "]"

/-- Contribution of one difference record to `added`
(cases `N` and `A`/`N` of the verifier's switch). -/
def addedOfDiff : Diff → List AddedEntry
  | .n p rhs => [⟨joinPath p, rhs⟩]
  | .arrN p i rhs => [⟨arrayPathStr p i, rhs⟩]
  | _ => []

/-- Contribution of one difference record to `removed`
(cases `D` and `A`/`D`). -/
def removedOfDiff : Diff → List RemovedEntry
  | .d p lhs => [⟨joinPath p, lhs⟩]
  | .arrD p i lhs => [⟨arrayPathStr p i, lhs⟩]
  | _ => []

/-- Contribution of one difference record to `modified`
(cases `E` and `A`/`E`). -/
def modifiedOfDiff : Diff → List ModifiedEntry
  | .e p lhs rhs => [⟨joinPath p, lhs, rhs⟩]
  | .arrE p i lhs rhs => [⟨arrayPathStr p i, lhs, rhs⟩]
  | _ => []

/-- Contribution of one difference record to `incompatible`: removals are
always breaking, edits are breaking exactly when the JS `typeof` of the two
sides differ. -/
def incompatOfDiff : Diff → List IncompatEntry
  | .d p lhs => [⟨joinPath p, "Field was removed", some lhs, none, none⟩]
  | .arrD p i lhs => [⟨arrayPathStr p i, "Array element was removed", some lhs, none, none⟩]
  | .e p lhs rhs =>
      if Json.jsTypeof lhs ≠ Json.jsTypeof rhs then
        [⟨joinPath p,
          "Type changed from " ++ Json.jsTypeof lhs ++ " to " ++ Json.jsTypeof rhs,
          none, some lhs, some rhs⟩]
      else []
  | .arrE p i lhs rhs =>
      if Json.jsTypeof lhs ≠ Json.jsTypeof rhs then
        [⟨arrayPathStr p i,
          "Type changed from " ++ Json.jsTypeof lhs ++ " to " ++ Json.jsTypeof rhs,
          none, some lhs, some rhs⟩]
      else []
  | _ => []

/-- The `bodyDiffs` record of the base verifier. -/
structure BodyDiffs where
  added : List AddedEntry
  removed : List RemovedEntry
  modified : List ModifiedEntry
  incompatible : List IncompatEntry
  total : Nat
deriving Repr, DecidableEq

/-- `typeof x` where `x` may be `undefined` (a missing body). -/
def jsTypeofOpt : Option Json → String
  | none => "undefined"
  | some v => Json.jsTypeof v

namespace Base

/-- `compareResponseBodies` of the base verifier: `undefined` bodies and
`typeof` mismatches are handled first, primitive (or `null`) bodies are
compared directly, and structured bodies go through `deep-diff` with the
differences categorized by the switch modelled by the `…OfDiff`
functions.  The `catch` branch is unreachable in the model (the walk is
total). -/
def compareResponseBodies (opts : BaseOptions) (ob rb : Option Json) : BodyDiffs :=
  if ob = none ∧ rb = none then ⟨[], [], [], [], 0⟩
  else if jsTypeofOpt ob ≠ jsTypeofOpt rb then
    ⟨[], [], [],
      [⟨"/", "Type mismatch: " ++ jsTypeofOpt ob ++ " vs " ++ jsTypeofOpt rb, none, none, none⟩],
      1⟩
  else
    match ob, rb with
    | some o, some r =>
        if Json.jsTypeof o ≠ "object" ∨ o = Json.null ∨ r = Json.null then
          if o = r then ⟨[], [], [], [], 0⟩
          else ⟨[], [], [⟨"/", o, r⟩], [], 1⟩
        else
          let kept := (computeDiff [] o r).filter (fun d => ¬ shouldIgnoreField opts d.pathStr)
          let added := kept.flatMap addedOfDiff
          let removed := kept.flatMap removedOfDiff
          let modified := kept.flatMap modifiedOfDiff
          let incompatible := kept.flatMap incompatOfDiff
          ⟨added, removed, modified, incompatible,
            added.length + removed.length + modified.length⟩
    | _, _ => ⟨[], [], [], [], 0⟩

end Base

/-- An entry of `headerDiffs.modified`. -/
structure HeaderModEntry where
  key : String
  original : Option Json
  replayed : Option Json
deriving Repr, DecidableEq

/-- The `headerDiffs` record. -/
structure HeaderDiffs where
  added : List String
  removed : List String
  modified : List HeaderModEntry
  total : Nat
deriving Repr, DecidableEq

/-- `compareHeaders`: keys only on the replayed side are `added`, keys only
on the original side are `removed`, shared keys with unequal values are
`modified`. -/
def compareHeaders (oh rh : List (String × Json)) : HeaderDiffs :=
  let originalKeys := oh.map Prod.fst
  let replayedKeys := rh.map Prod.fst
  let added := replayedKeys.filter (fun k => ¬ originalKeys.contains k)
  let removed := originalKeys.filter (fun k => ¬ replayedKeys.contains k)
  let modified := (originalKeys.filter
      (fun k => replayedKeys.contains k ∧ jsLookup oh k ≠ jsLookup rh k)).map
    (fun k => (⟨k, jsLookup oh k, jsLookup rh k⟩ : HeaderModEntry))
  ⟨added, removed, modified, added.length + removed.length + modified.length⟩

/-- A captured or replayed HTTP response. -/
structure Response where
  statusCode : Int
  headers : List (String × Json)
  body : Option Json
deriving Repr, DecidableEq

/-- JS property assignment on an assoc list: an existing key keeps its
position, a new key is appended. -/
def updateOrAppend (kvs : List (String × Json)) (k : String) (v : Json) :
    List (String × Json) :=
  if jsHasKey kvs k then kvs.map (fun p => if p.1 == k then (k, v) else p)
  else kvs ++ [(k, v)]

/-- Header normalization inside `normalizeForComparison` (response level):
keys are lowercased in order, ignored header names are dropped. -/
def normalizeHeaders (ignoreHeaders : List String) (headers : List (String × Json)) :
    List (String × Json) :=
  headers.foldl
    (fun acc p =>
      if ignoreHeaders.contains (jsToLower p.1) then acc
      else updateOrAppend acc (jsToLower p.1) p.2)
    []

namespace Base

/-- `normalizeForComparison` of the base verifier (response level): headers
are lowercased with ignored names removed, and a string body whose first
character is a brace or bracket is parsed as JSON, the string being kept
when parsing fails. -/
def normalizeForComparison (opts : BaseOptions) (r : Response) : Response :=
  let body :=
    match r.body with
    | some (Json.str s) =>
        if jsStartsWith s "\x7b" || jsStartsWith s "[" then
          match jsonParse s with
          | some v => some v
          | none => some (Json.str s)
        else some (Json.str s)
    | b => b
  ⟨r.statusCode, normalizeHeaders opts.ignoreHeaders r.headers, body⟩

/-- The per-interaction comparison record. -/
structure ComparisonResult where
  statusMatch : Bool
  headerDiffs : HeaderDiffs
  bodyDiffs : BodyDiffs
  isCompatible : Bool
deriving Repr, DecidableEq

/-- `compareResponses` of the base verifier: normalize both responses,
compare status, headers, and bodies, and derive the verdict
`statusMatch && headerDiffs.added = [] && headerDiffs.removed = [] &&
bodyDiffs.incompatible = [] && bodyDiffs.removed = []`. -/
def compareResponses (opts : BaseOptions) (original replayed : Response) :
    ComparisonResult :=
  let no := normalizeForComparison opts original
  let nr := normalizeForComparison opts replayed
  let statusMatch := no.statusCode == nr.statusCode
  let headerDiffs := compareHeaders no.headers nr.headers
  let bodyDiffs := compareResponseBodies opts no.body nr.body
  ⟨statusMatch, headerDiffs, bodyDiffs,
    statusMatch && headerDiffs.added.isEmpty && headerDiffs.removed.isEmpty &&
      bodyDiffs.incompatible.isEmpty && bodyDiffs.removed.isEmpty⟩

/-- Counters accumulated by the `replayAgainstContract` loop. -/
structure Counts where
  total : Nat
  compatible : Nat
  incompatible : Nat
  errors : Nat
deriving Repr, DecidableEq

/-- One iteration of the loop: a successfully replayed interaction is
compared and counted compatible or incompatible; an interaction whose
replay threw is counted as an error. -/
def stepCounts (opts : BaseOptions) (acc : Counts) :
    Except String (Response × Response) → Counts
  | .error _ => ⟨acc.total + 1, acc.compatible, acc.incompatible, acc.errors + 1⟩
  | .ok (o, r) =>
      if (compareResponses opts o r).isCompatible then
        ⟨acc.total + 1, acc.compatible + 1, acc.incompatible, acc.errors⟩
      else
        ⟨acc.total + 1, acc.compatible, acc.incompatible + 1, acc.errors⟩

/-- The summary produced by `replayAgainstContract`. -/
structure Summary where
  total : Nat
  compatible : Nat
  incompatible : Nat
  errors : Nat
  compatibilityScore : ℚ
deriving Repr, DecidableEq

/-- The counting part of `replayAgainstContract`: each interaction of the
session yields either a pair of responses (original, replayed) or the
message of the exception thrown while replaying it. -/
def replayCounts (opts : BaseOptions)
    (outcomes : List (Except String (Response × Response))) : Counts :=
  outcomes.foldl (stepCounts opts) ⟨0, 0, 0, 0⟩

/-- The score expression `total > 0 ? (num / total) * 100 : 0` shared by
`compatibilityScore` and `effectiveCompatibilityScore`. -/
def ratioScore (num total : Nat) : ℚ :=
  if total > 0 then ((num : ℚ) / (total : ℚ)) * 100 else 0

/-- `replayAgainstContract`'s summary: the counters of the loop together
with `compatibilityScore = (compatible / total) * 100` (0 for an empty
session). -/
def replaySummary (opts : BaseOptions)
    (outcomes : List (Except String (Response × Response))) : Summary :=
  let c := replayCounts opts outcomes
  ⟨c.total, c.compatible, c.incompatible, c.errors,
    ratioScore c.compatible c.total⟩

end Base

/-! ## Claim C1 and C2 -/

/-- Test selecting the incompatibility entries of the spec's
`bodyDiffs.typeChanged` category: those whose reason records a runtime-type
change.  The reporter itself selects these entries with
`diff.reason.includes('Type changed')`; the root-level `Type mismatch`
record is the same category at the root path. -/
def isTypeEntry (e : IncompatEntry) : Bool :=
  jsIncludes e.reason "Type changed" || jsIncludes e.reason "Type mismatch"

/-- The spec's `bodyDiffs.typeChanged` projection of a `bodyDiffs`
record. -/
def typeChangedOf (bd : BodyDiffs) : List IncompatEntry :=
  bd.incompatible.filter isTypeEntry

theorem jsIncludes_of_prefix (s t : String) (h : t.toList <+: s.toList) :
    jsIncludes s t = true := by
  simp only [jsIncludes, decide_eq_true_eq]
  exact h.isInfix

theorem toList_append (a b : String) : (a ++ b).toList = a.toList ++ b.toList := by
  cases a
  cases b
  rfl

theorem typeEntry_type_changed (p : String) (x y : String) (v o r : Option Json) :
    isTypeEntry ⟨p, "Type changed from " ++ x ++ " to " ++ y, v, o, r⟩ = true := by
  have h : ("Type changed").toList <+: ("Type changed from " ++ x ++ " to " ++ y).toList := by
    simp only [toList_append, List.append_assoc]
    exact List.IsPrefix.trans (by decide) (List.prefix_append _ _)
  simp [isTypeEntry, jsIncludes_of_prefix _ _ h]

theorem typeEntry_type_mismatch (p : String) (x y : String) (v o r : Option Json) :
    isTypeEntry ⟨p, "Type mismatch: " ++ x ++ " vs " ++ y, v, o, r⟩ = true := by
  have h : ("Type mismatch").toList <+: ("Type mismatch: " ++ x ++ " vs " ++ y).toList := by
    simp only [toList_append, List.append_assoc]
    exact List.IsPrefix.trans (by decide) (List.prefix_append _ _)
  have h2 : jsIncludes ("Type mismatch: " ++ x ++ " vs " ++ y) "Type mismatch" = true :=
    jsIncludes_of_prefix _ _ h
  simp [isTypeEntry, h2]

theorem typeEntry_field_removed (p : String) (v o r : Option Json) :
    isTypeEntry ⟨p, "Field was removed", v, o, r⟩ = false := by
  simp only [isTypeEntry]
  decide

theorem typeEntry_array_removed (p : String) (v o r : Option Json) :
    isTypeEntry ⟨p, "Array element was removed", v, o, r⟩ = false := by
  simp only [isTypeEntry]
  decide

/-- Per-record form of the C1 equivalence: a record contributes no
incompatibility exactly when it contributes no removal and no type-change
entry. -/
theorem incompatOfDiff_isEmpty (d : Diff) :
    (incompatOfDiff d).isEmpty =
      ((removedOfDiff d).isEmpty && ((incompatOfDiff d).filter isTypeEntry).isEmpty) := by
  cases d with
  | n p rhs => simp [incompatOfDiff, removedOfDiff]
  | d p lhs =>
      simp [incompatOfDiff, removedOfDiff]
  | e p lhs rhs =>
      by_cases h : Json.jsTypeof lhs ≠ Json.jsTypeof rhs
      · simp [incompatOfDiff, removedOfDiff, h, typeEntry_type_changed]
      · simp [incompatOfDiff, removedOfDiff, h]
  | arrD p i lhs =>
      simp [incompatOfDiff, removedOfDiff]
  | arrN p i rhs => simp [incompatOfDiff, removedOfDiff]
  | arrE p i lhs rhs =>
      by_cases h : Json.jsTypeof lhs ≠ Json.jsTypeof rhs
      · simp [incompatOfDiff, removedOfDiff, h, typeEntry_type_changed]
      · simp [incompatOfDiff, removedOfDiff, h]

theorem bool_and_shuffle (a b c d : Bool) : ((a && b) && (c && d)) = ((a && c) && (b && d)) := by
  cases a <;> cases b <;> cases c <;> cases d <;> rfl

theorem listIsEmpty_append {α : Type} (l r : List α) :
    (l ++ r).isEmpty = (l.isEmpty && r.isEmpty) := by
  cases l <;> simp [List.isEmpty]

/-- List-level form of the C1 equivalence over a batch of difference
records. -/
theorem diffs_incompat_isEmpty (ds : List Diff) :
    (ds.flatMap incompatOfDiff).isEmpty =
      ((ds.flatMap removedOfDiff).isEmpty &&
        ((ds.flatMap incompatOfDiff).filter isTypeEntry).isEmpty) := by
  induction ds with
  | nil => rfl
  | cons d ds ih =>
      simp only [List.flatMap_cons, List.filter_append, listIsEmpty_append]
      rw [incompatOfDiff_isEmpty d, ih]
      exact bool_and_shuffle _ _ _ _

/-- `bodyDiffs`-level form of the C1 equivalence: no incompatibility entry
exactly when nothing was removed and nothing changed its runtime type. -/
theorem compareResponseBodies_incompat_isEmpty (opts : BaseOptions) (ob rb : Option Json) :
    (Base.compareResponseBodies opts ob rb).incompatible.isEmpty =
      ((Base.compareResponseBodies opts ob rb).removed.isEmpty &&
        (typeChangedOf (Base.compareResponseBodies opts ob rb)).isEmpty) := by
  unfold Base.compareResponseBodies
  split
  · rfl
  · split
    · rename_i hne
      simp [typeChangedOf, typeEntry_type_mismatch]
    · split
      · split
        · split
          · rfl
          · rfl
        · exact diffs_incompat_isEmpty _
      · rfl

unseal computeDiff diffArr diffFieldsL

theorem bool_and_regroup (a b c d e : Bool) :
    (a && b && c && (d && e) && d) = (a && b && c && d && e) := by
  cases a <;> cases b <;> cases c <;> cases d <;> cases e <;> rfl

/-- C1: for every pair of recorded and replayed responses the verdict of
`compareResponses` satisfies `isCompatible = statusMatch ∧ headerDiffs.added
= ∅ ∧ headerDiffs.removed = ∅ ∧ bodyDiffs.removed = ∅ ∧
bodyDiffs.typeChanged = ∅` (the type-changed entries being the
incompatibility records of the type-change category); in particular a
replayed body that only adds a field is compatible, while an added header
makes the interaction incompatible. -/
theorem C1_isCompatible_formula :
    (∀ (opts : BaseOptions) (original replayed : Response),
        (Base.compareResponses opts original replayed).isCompatible =
          ((Base.compareResponses opts original replayed).statusMatch &&
            (Base.compareResponses opts original replayed).headerDiffs.added.isEmpty &&
            (Base.compareResponses opts original replayed).headerDiffs.removed.isEmpty &&
            (Base.compareResponses opts original replayed).bodyDiffs.removed.isEmpty &&
            (typeChangedOf (Base.compareResponses opts original replayed).bodyDiffs).isEmpty)) ∧
    (Base.compareResponses {} ⟨200, [], some (Json.obj [("a", Json.num 1)])⟩
        ⟨200, [], some (Json.obj [("a", Json.num 1), ("b", Json.num 2)])⟩).isCompatible
      = true ∧
    (Base.compareResponses {} ⟨200, [], some (Json.obj [("a", Json.num 1)])⟩
        ⟨200, [("x-extra", Json.str "1")], some (Json.obj [("a", Json.num 1)])⟩).isCompatible
      = false := by
  refine ⟨fun opts original replayed => ?_, by decide, by decide⟩
  simp only [Base.compareResponses]
  rw [compareResponseBodies_incompat_isEmpty]
  exact bool_and_regroup _ _ _ _ _

theorem counts_invariant (opts : BaseOptions) :
    ∀ (outcomes : List (Except String (Response × Response))) (acc : Base.Counts),
      acc.total = acc.compatible + acc.incompatible + acc.errors →
      (outcomes.foldl (Base.stepCounts opts) acc).total =
        (outcomes.foldl (Base.stepCounts opts) acc).compatible +
          (outcomes.foldl (Base.stepCounts opts) acc).incompatible +
          (outcomes.foldl (Base.stepCounts opts) acc).errors := by
  intro outcomes
  induction outcomes with
  | nil => intro acc h; simpa using h
  | cons oc rest ih =>
      intro acc h
      simp only [List.foldl_cons]
      apply ih
      cases oc with
      | error e => simp [Base.stepCounts, h]; omega
      | ok pr =>
          obtain ⟨o, r⟩ := pr
          by_cases hc : (Base.compareResponses opts o r).isCompatible
          · simp [Base.stepCounts, hc, h]; omega
          · simp [Base.stepCounts, hc, h]; omega

/-- C2: for every replayed session the summary satisfies
`total = compatible + incompatible + errors` (each interaction lands in
exactly one bucket) and `compatibilityScore = 100 * compatible / total`,
with score 0 when `total = 0`. -/
theorem C2_summary_invariant :
    ∀ (opts : BaseOptions) (outcomes : List (Except String (Response × Response))),
      (Base.replaySummary opts outcomes).total =
          (Base.replaySummary opts outcomes).compatible +
            (Base.replaySummary opts outcomes).incompatible +
            (Base.replaySummary opts outcomes).errors ∧
      (Base.replaySummary opts outcomes).compatibilityScore =
          (if (Base.replaySummary opts outcomes).total = 0 then 0
            else 100 * ((Base.replaySummary opts outcomes).compatible : ℚ) /
              ((Base.replaySummary opts outcomes).total : ℚ)) := by
  intro opts outcomes
  constructor
  · exact counts_invariant opts outcomes ⟨0, 0, 0, 0⟩ rfl
  · simp only [Base.replaySummary, Base.replayCounts, Base.ratioScore]
    by_cases h : (outcomes.foldl (Base.stepCounts opts) ⟨0, 0, 0, 0⟩).total = 0
    · simp [h]
    · have hp : 0 < (outcomes.foldl (Base.stepCounts opts) ⟨0, 0, 0, 0⟩).total :=
        Nat.pos_of_ne_zero h
      rw [if_pos hp, if_neg h]
      ring

/-! ## The session recorder (`SessionRecorder`, interaction_tagger.js)

Capture-time redaction of sensitive headers and body fields, and the
content hash computed by `recordInteraction` over
`{ method, path, query, body }`. -/

/-- Recorder constructor options consulted by capture and hashing. -/
structure RecorderOptions where
  includeHeaders : Bool := true
  includeBody : Bool := true
  sensitiveHeaders : List String := ["authorization", "cookie", "set-cookie"]
  sensitiveFields : List String := ["password", "token", "secret", "key", "authorization"]

/-- `sensitiveFields.some(field => key.toLowerCase().includes(field))`. -/
def isSensitiveKey (fields : List String) (k : String) : Bool :=
  fields.any (fun f => jsIncludes (jsToLower k) f)

mutual

/-- `sanitizeData`'s recursive sanitizer: a field whose key contains a
sensitive fragment (case-insensitively) is replaced by the redaction
sentinel; other object fields and array elements are recursed; primitives
are returned unchanged. -/
def sanitizeData (fields : List String) : Json → Json
  | .obj kvs => .obj (sanitizeFields fields kvs)
  | .arr xs => .arr (sanitizeList fields xs)
  | v => v

/-- Elementwise sanitization of array elements (array indices never match
a sensitive fragment). -/
def sanitizeList (fields : List String) : List Json → List Json
  | [] => []
  | x :: xs => sanitizeData fields x :: sanitizeList fields xs

/-- Entrywise sanitization of the fields of an object. -/
def sanitizeFields (fields : List String) :
    List (String × Json) → List (String × Json)
  | [] => []
  | (k, v) :: rest =>
      (if isSensitiveKey fields k then (k, Json.str "[REDACTED]")
        else (k, sanitizeData fields v)) :: sanitizeFields fields rest

end

/-- One step of `filterSensitiveHeaders`: the value under a sensitive
header name is replaced by the sentinel when it is truthy
(`if (filteredHeaders[header])`). -/
def redactHeader (kvs : List (String × Json)) (h : String) : List (String × Json) :=
  match jsLookup kvs h with
  | some v =>
      if v.jsTruthy then
        kvs.map (fun p => if p.1 == h then (h, Json.str "[REDACTED]") else p)
      else kvs
  | none => kvs

/-- `filterSensitiveHeaders`: fold `redactHeader` over the configured
sensitive header names. -/
def filterSensitiveHeaders (opts : RecorderOptions)
    (headers : List (String × Json)) : List (String × Json) :=
  opts.sensitiveHeaders.foldl redactHeader headers

/-- Field-list sorting by key (`Object.keys(data).sort()`). -/
def keyLE (p q : String × Json) : Prop := p.1 ≤ q.1

instance : DecidableRel keyLE := fun p q => by
  unfold keyLE
  infer_instance

/-- `Object.keys(data).sort()` applied to an association list. -/
def sortFieldsByKey (kvs : List (String × Json)) : List (String × Json) :=
  List.insertionSort keyLE kvs

theorem sizeOf_sortFieldsByKey (kvs : List (String × Json)) :
    sizeOf (sortFieldsByKey kvs) = sizeOf kvs :=
  (List.perm_insertionSort keyLE kvs).sizeOf_eq_sizeOf

mutual

/-- `normalizeForHashing`: arrays are recursed elementwise, objects are
rebuilt with lexicographically sorted keys and normalized values,
primitives pass through. -/
def normalizeForHashing : Json → Json
  | .arr xs => .arr (normalizeHashList xs)
  | .obj kvs => .obj (normalizeHashFields (sortFieldsByKey kvs))
  | v => v
termination_by j => sizeOf j
decreasing_by
  all_goals ((try rw [sizeOf_sortFieldsByKey]); simp; try omega)

/-- Elementwise normalization of array elements. -/
def normalizeHashList : List Json → List Json
  | [] => []
  | x :: xs => normalizeForHashing x :: normalizeHashList xs
termination_by l => sizeOf l
decreasing_by
  all_goals (simp; try omega)

/-- Entrywise normalization of the values of an already-sorted field
list. -/
def normalizeHashFields : List (String × Json) → List (String × Json)
  | [] => []
  | (k, v) :: rest => (k, normalizeForHashing v) :: normalizeHashFields rest
termination_by l => sizeOf l
decreasing_by
  all_goals (simp; try omega)

end

/-- JSON string-literal escaping for `JSON.stringify`. -/
def escapeJsonChar (c : Char) : List Char :=
  if c = '"' then ['\\', '"']
  else if c = '\\' then ['\\', '\\']
  else if c = '\n' then ['\\', 'n']
  else if c = '\t' then ['\\', 't']
  else if c = '\r' then ['\\', 'r']
  else [c]

/-- Escape a string for embedding in JSON output. -/
def escapeJson (s : String) : String :=
  String.mk (s.toList.flatMap escapeJsonChar)

mutual

/-- `JSON.stringify` (compact form, no spacing) on the modelled value
space. -/
def stringify : Json → String
  | .null => "null"
  | .bool b => if b then "true" else "false"
  | .num n => toString n
  | .str s => "\"" ++ escapeJson s ++ "\""
  | .arr xs => "[" ++ String.intercalate "," (stringifyList xs) ++ "]"
  | .obj kvs => "\x7b" ++ String.intercalate "," (stringifyFields kvs) ++ "\x7d"

/-- Serialized forms of array elements. -/
def stringifyList : List Json → List String
  | [] => []
  | x :: xs => stringify x :: stringifyList xs

/-- Serialized forms of object members. -/
def stringifyFields : List (String × Json) → List String
  | [] => []
  | (k, v) :: rest => ("\"" ++ escapeJson k ++ "\":" ++ stringify v) :: stringifyFields rest

end

/-- `generateContentHash`: a string is hashed directly, any other value is
normalized for hashing and serialized first.  The SHA-256 digest itself is
a parameter `sha`: every property proved below holds for an arbitrary
digest function, as the code relies only on the digest being a function of
the serialized text. -/
def generateContentHash (sha : String → String) (data : Json) : String :=
  match data with
  | .str s => sha s
  | _ => sha (stringify (normalizeForHashing data))

/-- A captured HTTP request.  `timestampMs` models the capture instant
recorded next to the request; it is not consulted by the hash. -/
structure Request where
  method : String
  path : String
  headers : List (String × Json)
  query : List (String × Json)
  body : Option Json
  timestampMs : Int

/-- The `body` property of `captureRequest`: present only when bodies are
captured and the raw body is truthy, and then sanitized. -/
def capturedBody (opts : RecorderOptions) (body : Option Json) : Option Json :=
  if opts.includeBody then
    match body with
    | some b => if b.jsTruthy then some (sanitizeData opts.sensitiveFields b) else none
    | none => none
  else none

/-- The object hashed by `recordInteraction`:
`{ method, path, query, body }` built from the captured request.  A missing
body is an `undefined` property, which `JSON.stringify` omits, so it is
modelled by leaving the member out. -/
def hashInputJson (opts : RecorderOptions) (req : Request) : Json :=
  Json.obj
    ([("method", Json.str req.method), ("path", Json.str req.path),
        ("query", Json.obj req.query)] ++
      (match capturedBody opts req.body with
        | some b => [("body", b)]
        | none => []))

/-- `requestHash` as computed by `recordInteraction`. -/
def requestHash (sha : String → String) (opts : RecorderOptions) (req : Request) :
    String :=
  generateContentHash sha (hashInputJson opts req)

unseal normalizeForHashing normalizeHashList normalizeHashFields

/-! ## Claim C10 -/

/-- The redaction guarantee over a captured body: every field (at any
depth) whose key contains a sensitive fragment holds the sentinel, and
every other field satisfies the guarantee recursively. -/
inductive Sanitized (fields : List String) : Json → Prop where
  | null : Sanitized fields Json.null
  | bool (b : Bool) : Sanitized fields (Json.bool b)
  | num (n : Int) : Sanitized fields (Json.num n)
  | str (s : String) : Sanitized fields (Json.str s)
  | arr (xs : List Json) : (∀ x ∈ xs, Sanitized fields x) → Sanitized fields (Json.arr xs)
  | obj (kvs : List (String × Json)) :
      (∀ p ∈ kvs, isSensitiveKey fields p.1 = true → p.2 = Json.str "[REDACTED]") →
      (∀ p ∈ kvs, isSensitiveKey fields p.1 = false → Sanitized fields p.2) →
      Sanitized fields (Json.obj kvs)

mutual

theorem sanitized_sanitizeData (fields : List String) :
    ∀ j, Sanitized fields (sanitizeData fields j)
  | .null => Sanitized.null
  | .bool b => Sanitized.bool b
  | .num n => Sanitized.num n
  | .str s => Sanitized.str s
  | .arr xs => by
      have h := sanitized_sanitizeList fields xs
      simpa [sanitizeData] using Sanitized.arr _ h
  | .obj kvs => by
      have h := sanitized_sanitizeFields fields kvs
      simpa [sanitizeData] using Sanitized.obj _ h.1 h.2

theorem sanitized_sanitizeList (fields : List String) :
    ∀ xs, ∀ y ∈ sanitizeList fields xs, Sanitized fields y
  | [] => by simp [sanitizeList]
  | x :: xs => by
      intro y hy
      simp only [sanitizeList, List.mem_cons] at hy
      rcases hy with h | h
      · exact h ▸ sanitized_sanitizeData fields x
      · exact sanitized_sanitizeList fields xs y h

theorem sanitized_sanitizeFields (fields : List String) :
    ∀ kvs,
      (∀ p ∈ sanitizeFields fields kvs,
          isSensitiveKey fields p.1 = true → p.2 = Json.str "[REDACTED]") ∧
      (∀ p ∈ sanitizeFields fields kvs,
          isSensitiveKey fields p.1 = false → Sanitized fields p.2)
  | [] => by simp [sanitizeFields]
  | (k, v) :: rest => by
      have ih := sanitized_sanitizeFields fields rest
      by_cases hs : isSensitiveKey fields k = true
      · constructor
        · intro p hp hsp
          simp only [sanitizeFields, hs, if_true, List.mem_cons] at hp
          rcases hp with h | h
          · rw [h]
          · exact ih.1 p h hsp
        · intro p hp hsp
          simp only [sanitizeFields, hs, if_true, List.mem_cons] at hp
          rcases hp with h | h
          · rw [h] at hsp; simp [hs] at hsp
          · exact ih.2 p h hsp
      · constructor
        · intro p hp hsp
          simp only [sanitizeFields, hs, if_false, List.mem_cons] at hp
          rcases hp with h | h
          · rw [h] at hsp; simp at hsp; exact absurd hsp hs
          · exact ih.1 p h hsp
        · intro p hp hsp
          simp only [sanitizeFields, hs, if_false, List.mem_cons] at hp
          rcases hp with h | h
          · exact h ▸ sanitized_sanitizeData fields v
          · exact ih.2 p h hsp

end

mutual

/-- Whether any key anywhere in the value contains a sensitive fragment. -/
def hasSensitiveKey (fields : List String) : Json → Bool
  | .obj kvs => hasSensitiveKeyFields fields kvs
  | .arr xs => hasSensitiveKeyList fields xs
  | _ => false

/-- Any array element with a sensitive key somewhere. -/
def hasSensitiveKeyList (fields : List String) : List Json → Bool
  | [] => false
  | x :: xs => hasSensitiveKey fields x || hasSensitiveKeyList fields xs

/-- Any member with a sensitive key, or a sensitive key deeper down. -/
def hasSensitiveKeyFields (fields : List String) : List (String × Json) → Bool
  | [] => false
  | (k, v) :: rest =>
      isSensitiveKey fields k || hasSensitiveKey fields v ||
        hasSensitiveKeyFields fields rest

end

mutual

theorem sanitizeData_id (fields : List String) :
    ∀ j, hasSensitiveKey fields j = false → sanitizeData fields j = j
  | .null, _ => rfl
  | .bool _, _ => rfl
  | .num _, _ => rfl
  | .str _, _ => rfl
  | .arr xs, h => by
      simp only [hasSensitiveKey] at h
      simp [sanitizeData, sanitizeList_id fields xs h]
  | .obj kvs, h => by
      simp only [hasSensitiveKey] at h
      simp [sanitizeData, sanitizeFields_id fields kvs h]

theorem sanitizeList_id (fields : List String) :
    ∀ xs, hasSensitiveKeyList fields xs = false → sanitizeList fields xs = xs
  | [], _ => rfl
  | x :: xs, h => by
      simp only [hasSensitiveKeyList, Bool.or_eq_false_iff] at h
      simp [sanitizeList, sanitizeData_id fields x h.1, sanitizeList_id fields xs h.2]

theorem sanitizeFields_id (fields : List String) :
    ∀ kvs, hasSensitiveKeyFields fields kvs = false → sanitizeFields fields kvs = kvs
  | [], _ => rfl
  | (k, v) :: rest, h => by
      simp only [hasSensitiveKeyFields, Bool.or_eq_false_iff] at h
      simp [sanitizeFields, h.1.1, sanitizeData_id fields v h.1.2,
        sanitizeFields_id fields rest h.2]

end

theorem jsLookup_cons (a : String) (w : Json) (rest : List (String × Json)) (k : String) :
    jsLookup ((a, w) :: rest) k = if a == k then some w else jsLookup rest k := by
  by_cases h : a == k
  · simp [jsLookup, List.find?_cons_of_pos, h]
  · rw [if_neg h]
    unfold jsLookup
    rw [List.find?_cons_of_neg _ (by simpa using h)]

/-- One redaction map step seen through `jsLookup`: the sensitive key maps
to the sentinel (when present), any other key is untouched. -/
theorem jsLookup_redact_map (h k : String) (kvs : List (String × Json)) :
    jsLookup (kvs.map (fun p => if p.1 == h then (h, Json.str "[REDACTED]") else p)) k =
      if k = h then (jsLookup kvs h).map (fun _ => Json.str "[REDACTED]")
      else jsLookup kvs k := by
  induction kvs with
  | nil => by_cases hk : k = h <;> simp [jsLookup, hk]
  | cons p rest ih =>
      obtain ⟨a, w⟩ := p
      simp only [List.map_cons]
      by_cases hah : a = h <;> by_cases hkh : k = h <;>
          simp_all [jsLookup_cons] <;>
        rw [if_neg (fun hh => hkh hh.symm), if_neg (fun hh => hkh hh.symm)]

/-- Lookup after one redaction step, same key. -/
theorem jsLookup_redactHeader_self (kvs : List (String × Json)) (h : String) (v : Json)
    (hv : jsLookup kvs h = some v) (ht : v.jsTruthy = true) :
    jsLookup (redactHeader kvs h) h = some (Json.str "[REDACTED]") := by
  unfold redactHeader
  rw [hv]
  simp only [ht, if_true]
  rw [jsLookup_redact_map h h kvs, if_pos rfl, hv]
  rfl

/-- Lookup after one redaction step, different key. -/
theorem jsLookup_redactHeader_other (kvs : List (String × Json)) (h k : String)
    (hne : k ≠ h) : jsLookup (redactHeader kvs h) k = jsLookup kvs k := by
  unfold redactHeader
  cases hl : jsLookup kvs h with
  | none => rfl
  | some v =>
      by_cases ht : v.jsTruthy
      · simp only [ht, if_true]
        rw [jsLookup_redact_map h k kvs, if_neg hne]
      · simp [ht]

theorem filterSensitiveHeaders_default (headers : List (String × Json)) :
    filterSensitiveHeaders {} headers =
      redactHeader (redactHeader (redactHeader headers "authorization") "cookie")
        "set-cookie" := rfl

/-- C10 (amended): the recorder replaces the value of each sensitive
request header (`authorization`, `cookie`, `set-cookie`) with
`"[REDACTED]"` provided that value is truthy (a falsy value such as the
empty string is left untouched), and leaves all other header keys
unchanged; in the captured body every field at any depth whose key
contains a sensitive fragment (case-insensitively) holds `"[REDACTED]"`,
and a body containing no sensitive key anywhere is stored unchanged. -/
theorem C10_capture_redaction :
    (∀ (headers : List (String × Json)) (h : String) (v : Json),
        h ∈ (["authorization", "cookie", "set-cookie"] : List String) →
        jsLookup headers h = some v → v.jsTruthy = true →
        jsLookup (filterSensitiveHeaders {} headers) h = some (Json.str "[REDACTED]")) ∧
    (∀ (headers : List (String × Json)) (k : String),
        k ∉ (["authorization", "cookie", "set-cookie"] : List String) →
        jsLookup (filterSensitiveHeaders {} headers) k = jsLookup headers k) ∧
    (∀ j : Json,
        Sanitized ["password", "token", "secret", "key", "authorization"]
          (sanitizeData ["password", "token", "secret", "key", "authorization"] j)) ∧
    (∀ j : Json,
        hasSensitiveKey ["password", "token", "secret", "key", "authorization"] j = false →
        sanitizeData ["password", "token", "secret", "key", "authorization"] j = j) := by
  refine ⟨?_, ?_, fun j => sanitized_sanitizeData _ j, fun j h => sanitizeData_id _ j h⟩
  · intro headers h v hmem hv ht
    rw [filterSensitiveHeaders_default]
    rcases (by simpa using hmem :
        h = "authorization" ∨ h = "cookie" ∨ h = "set-cookie") with rfl | rfl | rfl
    · rw [jsLookup_redactHeader_other _ _ _ (by decide),
        jsLookup_redactHeader_other _ _ _ (by decide)]
      exact jsLookup_redactHeader_self headers "authorization" v hv ht
    · rw [jsLookup_redactHeader_other _ _ _ (by decide)]
      refine jsLookup_redactHeader_self _ _ v ?_ ht
      rw [jsLookup_redactHeader_other _ _ _ (by decide)]
      exact hv
    · refine jsLookup_redactHeader_self _ _ v ?_ ht
      rw [jsLookup_redactHeader_other _ _ _ (by decide),
        jsLookup_redactHeader_other _ _ _ (by decide)]
      exact hv
  · intro headers k hk
    have h1 : k ≠ "authorization" := fun hh => hk (by simp [hh])
    have h2 : k ≠ "cookie" := fun hh => hk (by simp [hh])
    have h3 : k ≠ "set-cookie" := fun hh => hk (by simp [hh])
    rw [filterSensitiveHeaders_default, jsLookup_redactHeader_other _ _ _ h3,
      jsLookup_redactHeader_other _ _ _ h2, jsLookup_redactHeader_other _ _ _ h1]

/-- C10 counterexample: the claim as stated is false — a sensitive header
whose captured value is the empty string (falsy in JS) is stored verbatim,
not replaced by the redaction sentinel. -/
theorem C10_falsy_header_counterexample :
    jsLookup (filterSensitiveHeaders {} [("authorization", Json.str "")]) "authorization"
        = some (Json.str "") ∧
      some (Json.str "") ≠ some (Json.str "[REDACTED]") :=
  ⟨by decide, by decide⟩

/-- Witness: C10_capture_redaction applied at concrete inputs. -/
theorem C10_capture_redaction_witness :
    jsLookup
        (filterSensitiveHeaders {}
          [("authorization", Json.str "Bearer abc"), ("accept", Json.str "text/html")])
        "authorization" = some (Json.str "[REDACTED]") ∧
    jsLookup
        (filterSensitiveHeaders {}
          [("authorization", Json.str "Bearer abc"), ("accept", Json.str "text/html")])
        "accept" = some (Json.str "text/html") ∧
    sanitizeData ["password", "token", "secret", "key", "authorization"]
        (Json.obj [("name", Json.str "x")]) = Json.obj [("name", Json.str "x")] :=
  ⟨C10_capture_redaction.1 _ "authorization" (Json.str "Bearer abc")
      (by decide) (by decide) (by decide),
    (C10_capture_redaction.2.1 _ "accept" (by decide)).trans (by decide),
    C10_capture_redaction.2.2.2 _ (by decide)⟩

/-! ## Claim C5: key-order independence of the request hash -/

mutual

/-- Two values that differ only in the key order of their object members:
leaves are equal, arrays are related elementwise (order preserved), and an
object on the right is a permutation of an entrywise-related copy of the
object on the left. -/
inductive KeyPerm : Json → Json → Prop where
  | null : KeyPerm Json.null Json.null
  | bool (b : Bool) : KeyPerm (Json.bool b) (Json.bool b)
  | num (n : Int) : KeyPerm (Json.num n) (Json.num n)
  | str (s : String) : KeyPerm (Json.str s) (Json.str s)
  | arr : ∀ xs ys, ElemsKeyPerm xs ys → KeyPerm (Json.arr xs) (Json.arr ys)
  | obj : ∀ kvs1 mid kvs2, FieldsAligned kvs1 mid → mid.Perm kvs2 →
      KeyPerm (Json.obj kvs1) (Json.obj kvs2)

/-- Elementwise `KeyPerm` on array elements. -/
inductive ElemsKeyPerm : List Json → List Json → Prop where
  | nil : ElemsKeyPerm [] []
  | cons : ∀ x y xs ys, KeyPerm x y → ElemsKeyPerm xs ys →
      ElemsKeyPerm (x :: xs) (y :: ys)

/-- Entrywise relation on field lists: same keys in the same order,
`KeyPerm`-related values. -/
inductive FieldsAligned : List (String × Json) → List (String × Json) → Prop where
  | nil : FieldsAligned [] []
  | cons : ∀ k v w t1 t2, KeyPerm v w → FieldsAligned t1 t2 →
      FieldsAligned ((k, v) :: t1) ((k, w) :: t2)

end

/-- Well-formedness of a JS value: every object in the tree has distinct
keys (as every JS object does). -/
inductive JsonWF : Json → Prop where
  | null : JsonWF Json.null
  | bool (b : Bool) : JsonWF (Json.bool b)
  | num (n : Int) : JsonWF (Json.num n)
  | str (s : String) : JsonWF (Json.str s)
  | arr (xs : List Json) : (∀ x ∈ xs, JsonWF x) → JsonWF (Json.arr xs)
  | obj (kvs : List (String × Json)) : (kvs.map Prod.fst).Nodup →
      (∀ p ∈ kvs, JsonWF p.2) → JsonWF (Json.obj kvs)

theorem KeyPerm.jsTruthy_eq : ∀ a b : Json, KeyPerm a b → a.jsTruthy = b.jsTruthy := by
  intro a b h
  cases h <;> rfl

theorem FieldsAligned.keys_eq :
    ∀ l1 l2, FieldsAligned l1 l2 → l1.map Prod.fst = l2.map Prod.fst := by
  intro l1
  induction l1 with
  | nil => intro l2 h; cases h; rfl
  | cons p t1 ih =>
      intro l2 h
      cases h with
      | cons k v w t1 t2 hv ht => simpa using ih t2 ht

instance : IsTotal (String × Json) keyLE :=
  ⟨fun p q => le_total p.1 q.1⟩

instance : IsTrans (String × Json) keyLE :=
  ⟨fun _ _ _ h1 h2 => le_trans h1 h2⟩

/-- The strict key order used to identify the two sorted lists. -/
def keyLT (p q : String × Json) : Prop := p.1 < q.1

instance : IsAntisymm (String × Json) keyLT :=
  ⟨fun p q h1 h2 => absurd h2 (lt_asymm h1)⟩

theorem FieldsAligned.orderedInsert (k : String) (v w : Json) (hvw : KeyPerm v w) :
    ∀ l1 l2, FieldsAligned l1 l2 →
      FieldsAligned (List.orderedInsert keyLE (k, v) l1)
        (List.orderedInsert keyLE (k, w) l2) := by
  intro l1
  induction l1 with
  | nil =>
      intro l2 h
      cases h
      exact FieldsAligned.cons k v w [] [] hvw FieldsAligned.nil
  | cons p t1 ih =>
      intro l2 h
      cases h with
      | cons k2 v2 w2 t1 t2 hv2 ht =>
          by_cases hle : keyLE (k, v) (k2, v2)
          · have hle2 : keyLE (k, w) (k2, w2) := hle
            simp only [List.orderedInsert, if_pos hle, if_pos hle2]
            exact FieldsAligned.cons k v w _ _ hvw
              (FieldsAligned.cons k2 v2 w2 t1 t2 hv2 ht)
          · have hle2 : ¬ keyLE (k, w) (k2, w2) := hle
            simp only [List.orderedInsert, if_neg hle, if_neg hle2]
            exact FieldsAligned.cons k2 v2 w2 _ _ hv2 (ih t2 ht)

theorem FieldsAligned.insertionSort :
    ∀ l1 l2, FieldsAligned l1 l2 →
      FieldsAligned (List.insertionSort keyLE l1) (List.insertionSort keyLE l2) := by
  intro l1
  induction l1 with
  | nil => intro l2 h; cases h; exact FieldsAligned.nil
  | cons p t1 ih =>
      intro l2 h
      cases h with
      | cons k v w t1 t2 hv ht =>
          simpa [List.insertionSort] using
            FieldsAligned.orderedInsert k v w hv _ _ (ih t2 ht)

/-- Two permuted field lists with distinct keys sort to the same list. -/
theorem sortFieldsByKey_eq_of_perm (l1 l2 : List (String × Json))
    (hp : l1.Perm l2) (hnd : (l1.map Prod.fst).Nodup) :
    sortFieldsByKey l1 = sortFieldsByKey l2 := by
  have hs1 : List.Sorted keyLE (sortFieldsByKey l1) := List.sorted_insertionSort keyLE l1
  have hs2 : List.Sorted keyLE (sortFieldsByKey l2) := List.sorted_insertionSort keyLE l2
  have hperm : (sortFieldsByKey l1).Perm (sortFieldsByKey l2) :=
    ((List.perm_insertionSort keyLE l1).trans hp).trans
      (List.perm_insertionSort keyLE l2).symm
  have hnd1 : ((sortFieldsByKey l1).map Prod.fst).Nodup :=
    (((List.perm_insertionSort keyLE l1).map Prod.fst).nodup_iff).mpr hnd
  have hlt1 : List.Pairwise keyLT (sortFieldsByKey l1) := by
    have hne : List.Pairwise (fun p q : String × Json => p.1 ≠ q.1) (sortFieldsByKey l1) :=
      (List.pairwise_map).mp hnd1
    exact (hs1.and hne).imp (fun h => lt_of_le_of_ne h.1 h.2)
  have hnd2 : ((sortFieldsByKey l2).map Prod.fst).Nodup := by
    have : (l2.map Prod.fst).Nodup := ((hp.map Prod.fst).nodup_iff).mp hnd
    exact (((List.perm_insertionSort keyLE l2).map Prod.fst).nodup_iff).mpr this
  have hlt2 : List.Pairwise keyLT (sortFieldsByKey l2) := by
    have hne : List.Pairwise (fun p q : String × Json => p.1 ≠ q.1) (sortFieldsByKey l2) :=
      (List.pairwise_map).mp hnd2
    exact (hs2.and hne).imp (fun h => lt_of_le_of_ne h.1 h.2)
  exact List.eq_of_perm_of_sorted hperm hlt1 hlt2

theorem normalizeHashFields_eq_of_aligned :
    ∀ l1 l2, FieldsAligned l1 l2 →
      (∀ p ∈ l1, ∀ w, KeyPerm p.2 w → normalizeForHashing p.2 = normalizeForHashing w) →
      normalizeHashFields l1 = normalizeHashFields l2 := by
  intro l1
  induction l1 with
  | nil => intro l2 h _; cases h; rfl
  | cons p t1 ih =>
      intro l2 h hIH
      cases h with
      | cons k v w t1 t2 hv ht =>
          simp only [normalizeHashFields]
          rw [hIH (k, v) (List.mem_cons_self _ _) w hv,
            ih t2 ht (fun q hq => hIH q (List.mem_cons_of_mem _ hq))]

theorem normalizeHashList_eq_of_elems :
    ∀ l1 l2, ElemsKeyPerm l1 l2 →
      (∀ x ∈ l1, ∀ y, KeyPerm x y → normalizeForHashing x = normalizeForHashing y) →
      normalizeHashList l1 = normalizeHashList l2 := by
  intro l1
  induction l1 with
  | nil => intro l2 h _; cases h; rfl
  | cons x t1 ih =>
      intro l2 h hIH
      cases h with
      | cons x y xs ys hxy ht =>
          simp only [normalizeHashList]
          rw [hIH x (List.mem_cons_self _ _) y hxy,
            ih ys ht (fun q hq => hIH q (List.mem_cons_of_mem _ hq))]

theorem sizeOf_snd_lt_of_mem (p : String × Json) (l : List (String × Json))
    (hp : p ∈ l) : sizeOf p.2 < sizeOf l := by
  have h1 : sizeOf p < sizeOf l := List.sizeOf_lt_of_mem hp
  obtain ⟨k, v⟩ := p
  simp only [Prod.mk.sizeOf_spec] at h1 ⊢
  omega

theorem norm_eq_of_keyPerm_aux :
    ∀ n a b, sizeOf a ≤ n → KeyPerm a b → JsonWF a →
      normalizeForHashing a = normalizeForHashing b := by
  intro n
  induction n with
  | zero =>
      intro a b hs _ _
      exfalso
      cases a <;> simp at hs
  | succ n ih =>
      intro a b hsize hkp hwf
      cases hkp with
      | null => rfl
      | bool b2 => rfl
      | num n2 => rfl
      | str s => rfl
      | arr xs ys hxs =>
          cases hwf with
          | arr _ hwfm =>
              simp only [normalizeForHashing]
              rw [normalizeHashList_eq_of_elems xs ys hxs]
              intro x hx y hxy
              have hlt : sizeOf x < sizeOf (Json.arr xs) := by
                have := List.sizeOf_lt_of_mem hx
                simp only [Json.arr.sizeOf_spec]
                omega
              exact ih x y (by omega) hxy (hwfm x hx)
      | obj kvs1 mid kvs2 halign hperm =>
          cases hwf with
          | obj _ hnd hwfm =>
              simp only [normalizeForHashing]
              have hmemIH : ∀ p ∈ sortFieldsByKey kvs1, ∀ w, KeyPerm p.2 w →
                  normalizeForHashing p.2 = normalizeForHashing w := by
                intro p hp w hpw
                have hpmem : p ∈ kvs1 :=
                  ((List.perm_insertionSort keyLE kvs1).mem_iff).mp hp
                have hlt : sizeOf p.2 < sizeOf (Json.obj kvs1) := by
                  have := sizeOf_snd_lt_of_mem p kvs1 hpmem
                  simp only [Json.obj.sizeOf_spec]
                  omega
                exact ih p.2 w (by omega) hpw (hwfm p hpmem)
              have hstep1 : normalizeHashFields (sortFieldsByKey kvs1) =
                  normalizeHashFields (sortFieldsByKey mid) :=
                normalizeHashFields_eq_of_aligned _ _
                  (FieldsAligned.insertionSort kvs1 mid halign) hmemIH
              have hndmid : (mid.map Prod.fst).Nodup := by
                rw [← FieldsAligned.keys_eq kvs1 mid halign]
                exact hnd
              have hstep2 : sortFieldsByKey mid = sortFieldsByKey kvs2 :=
                sortFieldsByKey_eq_of_perm mid kvs2 hperm hndmid
              rw [hstep1, hstep2]

/-- Key-order-equivalent well-formed values have identical hash
normalizations. -/
theorem normalizeForHashing_eq_of_keyPerm (a b : Json) (h : KeyPerm a b)
    (hwf : JsonWF a) : normalizeForHashing a = normalizeForHashing b :=
  norm_eq_of_keyPerm_aux (sizeOf a) a b le_rfl h hwf

theorem sanitizeFields_eq_map (f : List String) :
    ∀ l, sanitizeFields f l =
      l.map (fun p => if isSensitiveKey f p.1 then (p.1, Json.str "[REDACTED]")
        else (p.1, sanitizeData f p.2)) := by
  intro l
  induction l with
  | nil => rfl
  | cons p t ih =>
      obtain ⟨k, v⟩ := p
      simp only [sanitizeFields, List.map_cons, ih]

theorem sanitizeList_eq_map (f : List String) :
    ∀ l, sanitizeList f l = l.map (sanitizeData f) := by
  intro l
  induction l with
  | nil => rfl
  | cons x t ih => simp only [sanitizeList, List.map_cons, ih]

theorem sanitizeFields_aligned (f : List String) :
    ∀ l1 l2, FieldsAligned l1 l2 →
      (∀ p ∈ l1, ∀ w, KeyPerm p.2 w →
        KeyPerm (sanitizeData f p.2) (sanitizeData f w)) →
      FieldsAligned (sanitizeFields f l1) (sanitizeFields f l2) := by
  intro l1
  induction l1 with
  | nil => intro l2 h _; cases h; exact FieldsAligned.nil
  | cons p t1 ih =>
      intro l2 h hIH
      cases h with
      | cons k v w t1 t2 hv ht =>
          simp only [sanitizeFields]
          by_cases hs : isSensitiveKey f k
          · simp only [hs, if_true]
            exact FieldsAligned.cons k _ _ _ _ (KeyPerm.str _)
              (ih t2 ht (fun q hq => hIH q (List.mem_cons_of_mem _ hq)))
          · simp only [hs, if_false]
            exact FieldsAligned.cons k _ _ _ _
              (hIH (k, v) (List.mem_cons_self _ _) w hv)
              (ih t2 ht (fun q hq => hIH q (List.mem_cons_of_mem _ hq)))

theorem sanitizeList_elems (f : List String) :
    ∀ l1 l2, ElemsKeyPerm l1 l2 →
      (∀ x ∈ l1, ∀ y, KeyPerm x y → KeyPerm (sanitizeData f x) (sanitizeData f y)) →
      ElemsKeyPerm (sanitizeList f l1) (sanitizeList f l2) := by
  intro l1
  induction l1 with
  | nil => intro l2 h _; cases h; exact ElemsKeyPerm.nil
  | cons x t1 ih =>
      intro l2 h hIH
      cases h with
      | cons x y xs ys hxy ht =>
          simp only [sanitizeList]
          exact ElemsKeyPerm.cons _ _ _ _ (hIH x (List.mem_cons_self _ _) y hxy)
            (ih ys ht (fun q hq => hIH q (List.mem_cons_of_mem _ hq)))

theorem sanitize_keyPerm_aux (f : List String) :
    ∀ n a b, sizeOf a ≤ n → KeyPerm a b →
      KeyPerm (sanitizeData f a) (sanitizeData f b) := by
  intro n
  induction n with
  | zero =>
      intro a b hs _
      exfalso
      cases a <;> simp at hs
  | succ n ih =>
      intro a b hsize hkp
      cases hkp with
      | null => exact KeyPerm.null
      | bool b2 => exact KeyPerm.bool b2
      | num n2 => exact KeyPerm.num n2
      | str s => exact KeyPerm.str s
      | arr xs ys hxs =>
          simp only [sanitizeData]
          refine KeyPerm.arr _ _ (sanitizeList_elems f xs ys hxs ?_)
          intro x hx y hxy
          have hlt : sizeOf x < sizeOf (Json.arr xs) := by
            have := List.sizeOf_lt_of_mem hx
            simp only [Json.arr.sizeOf_spec]
            omega
          exact ih x y (by omega) hxy
      | obj kvs1 mid kvs2 halign hperm =>
          simp only [sanitizeData]
          refine KeyPerm.obj _ (sanitizeFields f mid) _
            (sanitizeFields_aligned f kvs1 mid halign ?_) ?_
          · intro p hp w hpw
            have hlt : sizeOf p.2 < sizeOf (Json.obj kvs1) := by
              have := sizeOf_snd_lt_of_mem p kvs1 hp
              simp only [Json.obj.sizeOf_spec]
              omega
            exact ih p.2 w (by omega) hpw
          · rw [sanitizeFields_eq_map, sanitizeFields_eq_map]
            exact hperm.map _

/-- Sanitization respects key-order equivalence. -/
theorem sanitizeData_keyPerm (f : List String) (a b : Json) (h : KeyPerm a b) :
    KeyPerm (sanitizeData f a) (sanitizeData f b) :=
  sanitize_keyPerm_aux f (sizeOf a) a b le_rfl h

theorem sanitize_wf_aux (f : List String) :
    ∀ n a, sizeOf a ≤ n → JsonWF a → JsonWF (sanitizeData f a) := by
  intro n
  induction n with
  | zero =>
      intro a hs _
      exfalso
      cases a <;> simp at hs
  | succ n ih =>
      intro a hsize hwf
      cases hwf with
      | null => exact JsonWF.null
      | bool b => exact JsonWF.bool b
      | num n2 => exact JsonWF.num n2
      | str s => exact JsonWF.str s
      | arr xs hwfm =>
          simp only [sanitizeData, sanitizeList_eq_map]
          refine JsonWF.arr _ ?_
          intro y hy
          obtain ⟨x, hx, rfl⟩ := List.mem_map.mp hy
          have hlt : sizeOf x < sizeOf (Json.arr xs) := by
            have := List.sizeOf_lt_of_mem hx
            simp only [Json.arr.sizeOf_spec]
            omega
          exact ih x (by omega) (hwfm x hx)
      | obj kvs hnd hwfm =>
          simp only [sanitizeData, sanitizeFields_eq_map]
          refine JsonWF.obj _ ?_ ?_
          · have : (List.map Prod.fst
                (kvs.map (fun p => if isSensitiveKey f p.1
                  then (p.1, Json.str "[REDACTED]") else (p.1, sanitizeData f p.2)))) =
                kvs.map Prod.fst := by
              rw [List.map_map]
              refine List.map_congr_left ?_
              intro p _
              by_cases hs : isSensitiveKey f p.1 <;> simp [hs]
            rw [this]
            exact hnd
          · intro q hq
            obtain ⟨p, hp, rfl⟩ := List.mem_map.mp hq
            by_cases hs : isSensitiveKey f p.1
            · simp only [hs, if_true]
              exact JsonWF.str _
            · simp only [hs, if_false]
              have hlt : sizeOf p.2 < sizeOf (Json.obj kvs) := by
                have := sizeOf_snd_lt_of_mem p kvs hp
                simp only [Json.obj.sizeOf_spec]
                omega
              exact ih p.2 (by omega) (hwfm p hp)

/-- Sanitization preserves well-formedness. -/
theorem sanitizeData_wf (f : List String) (a : Json) (h : JsonWF a) :
    JsonWF (sanitizeData f a) :=
  sanitize_wf_aux f (sizeOf a) a le_rfl h

/-- `KeyPerm` lifted to optional bodies (`undefined`/absent on both sides,
or related values). -/
def OptKeyPerm : Option Json → Option Json → Prop
  | none, none => True
  | some a, some b => KeyPerm a b
  | _, _ => False

/-- Well-formedness of an optional body. -/
def OptWF : Option Json → Prop
  | none => True
  | some a => JsonWF a

theorem capturedBody_rel (opts : RecorderOptions) (b1 b2 : Option Json)
    (h : OptKeyPerm b1 b2) :
    OptKeyPerm (capturedBody opts b1) (capturedBody opts b2) := by
  cases b1 with
  | none =>
      cases b2 with
      | none => simp [capturedBody, OptKeyPerm]
      | some v2 => simp [OptKeyPerm] at h
  | some v1 =>
      cases b2 with
      | none => simp [OptKeyPerm] at h
      | some v2 =>
          have hkp : KeyPerm v1 v2 := h
          have ht := KeyPerm.jsTruthy_eq v1 v2 hkp
          by_cases hin : opts.includeBody
          · by_cases htr : v1.jsTruthy
            · have htr2 : v2.jsTruthy = true := by rw [← ht]; exact htr
              simp only [capturedBody, hin, if_true, htr, htr2]
              exact sanitizeData_keyPerm opts.sensitiveFields v1 v2 hkp
            · have htr2 : v2.jsTruthy = false := by
                rw [← ht]; exact Bool.of_not_eq_true htr
              simp [capturedBody, hin, htr, htr2, OptKeyPerm]
          · simp [capturedBody, hin, OptKeyPerm]

theorem capturedBody_wf (opts : RecorderOptions) (b : Option Json) (h : OptWF b) :
    OptWF (capturedBody opts b) := by
  cases b with
  | none => simp [capturedBody, OptWF]
  | some v =>
      by_cases hin : opts.includeBody
      · by_cases htr : v.jsTruthy
        · simp only [capturedBody, hin, if_true, htr]
          exact sanitizeData_wf opts.sensitiveFields v h
        · simp [capturedBody, hin, htr, OptWF]
      · simp [capturedBody, hin, OptWF]

/-- C5: the request hash computed by `recordInteraction` is a function of
method, path, query, and body only — two requests that differ only in
their headers or capture timing, or only in the key order of their query
or (well-formed) body mappings, produce identical `requestHash` values,
for every digest function `sha`. -/
theorem C5_requestHash_stability :
    ∀ (sha : String → String) (opts : RecorderOptions) (r1 r2 : Request),
      r1.method = r2.method → r1.path = r2.path →
      KeyPerm (Json.obj r1.query) (Json.obj r2.query) →
      OptKeyPerm r1.body r2.body →
      JsonWF (Json.obj r1.query) → OptWF r1.body →
      requestHash sha opts r1 = requestHash sha opts r2 := by
  intro sha opts r1 r2 hm hp hq hb hwq hwb
  have hrel := capturedBody_rel opts r1.body r2.body hb
  have hcwf := capturedBody_wf opts r1.body hwb
  have hkp : KeyPerm (hashInputJson opts r1) (hashInputJson opts r2) := by
    unfold hashInputJson
    rw [← hm, ← hp]
    cases hc1 : capturedBody opts r1.body with
    | none =>
        cases hc2 : capturedBody opts r2.body with
        | none =>
            refine KeyPerm.obj _ _ _ ?_ (List.Perm.refl _)
            exact FieldsAligned.cons _ _ _ _ _ (KeyPerm.str _)
              (FieldsAligned.cons _ _ _ _ _ (KeyPerm.str _)
                (FieldsAligned.cons _ _ _ _ _ hq FieldsAligned.nil))
        | some b2 =>
            rw [hc1, hc2] at hrel
            simp [OptKeyPerm] at hrel
    | some b1 =>
        cases hc2 : capturedBody opts r2.body with
        | none =>
            rw [hc1, hc2] at hrel
            simp [OptKeyPerm] at hrel
        | some b2 =>
            rw [hc1, hc2] at hrel
            refine KeyPerm.obj _ _ _ ?_ (List.Perm.refl _)
            exact FieldsAligned.cons _ _ _ _ _ (KeyPerm.str _)
              (FieldsAligned.cons _ _ _ _ _ (KeyPerm.str _)
                (FieldsAligned.cons _ _ _ _ _ hq
                  (FieldsAligned.cons _ _ _ _ _ hrel FieldsAligned.nil)))
  have hwf : JsonWF (hashInputJson opts r1) := by
    unfold hashInputJson
    cases hc1 : capturedBody opts r1.body with
    | none =>
        refine JsonWF.obj _ (by simp) ?_
        intro p hp2
        simp at hp2
        rcases hp2 with rfl | rfl | rfl
        · exact JsonWF.str _
        · exact JsonWF.str _
        · exact hwq
    | some b1 =>
        rw [hc1] at hcwf
        refine JsonWF.obj _ (by simp) ?_
        intro p hp2
        simp at hp2
        rcases hp2 with rfl | rfl | rfl | rfl
        · exact JsonWF.str _
        · exact JsonWF.str _
        · exact hwq
        · exact hcwf
  have hnorm := normalizeForHashing_eq_of_keyPerm _ _ hkp hwf
  show sha (stringify (normalizeForHashing (hashInputJson opts r1))) =
    sha (stringify (normalizeForHashing (hashInputJson opts r2)))
  rw [hnorm]

/-- Witness: C5_requestHash_stability at concrete requests differing in
headers, timing, and the key order of query and body. -/
theorem C5_requestHash_stability_witness :
    requestHash (fun s => s) {}
        ⟨"GET", "/api/users", [("x-a", Json.str "1")],
          [("b", Json.num 1), ("a", Json.num 2)],
          some (Json.obj [("k1", Json.num 3), ("k2", Json.num 4)]), 100⟩ =
      requestHash (fun s => s) {}
        ⟨"GET", "/api/users", [("x-b", Json.str "2")],
          [("a", Json.num 2), ("b", Json.num 1)],
          some (Json.obj [("k2", Json.num 4), ("k1", Json.num 3)]), 999⟩ :=
  C5_requestHash_stability (fun s => s) {} _ _ rfl rfl
    (KeyPerm.obj _ [("b", Json.num 1), ("a", Json.num 2)] _
      (FieldsAligned.cons _ _ _ _ _ (KeyPerm.num 1)
        (FieldsAligned.cons _ _ _ _ _ (KeyPerm.num 2) FieldsAligned.nil))
      (by decide))
    (KeyPerm.obj _ [("k1", Json.num 3), ("k2", Json.num 4)] _
      (FieldsAligned.cons _ _ _ _ _ (KeyPerm.num 3)
        (FieldsAligned.cons _ _ _ _ _ (KeyPerm.num 4) FieldsAligned.nil))
      (by decide))
    (JsonWF.obj _ (by decide) (by
      intro p hp
      simp at hp
      rcases hp with rfl | rfl
      · exact JsonWF.num 1
      · exact JsonWF.num 2))
    (JsonWF.obj _ (by decide) (by
      intro p hp
      simp at hp
      rcases hp with rfl | rfl
      · exact JsonWF.num 3
      · exact JsonWF.num 4))

/-! ## The tolerance-aware verifier (`SnapshotVerifier`, replay_strict_mode.js)

The subclass overrides the body comparison with tolerance rules
(timestamp drift, UUID normalization, array sorting, ignore masks) applied
before and during diffing, and enriches the session summary with
tolerated/effective change counts.  `Date.now()` is modelled by the
explicit `nowMs` parameter of the options. -/

/-- The `tolerances` configuration object. -/
structure Tolerances where
  timestampDriftSeconds : Int := 5
  ignoreUUIDs : Bool := true
  sortArrays : Bool := true
  arrayFields : List String := []
  timestampFields : List String :=
    ["timestamp", "date", "time", "created", "updated", "at",
      "createdAt", "updatedAt", "created_at", "updated_at"]
  uuidFields : List String := ["id", "uuid", "guid", "trackingId"]
deriving Repr

/-- Options of the tolerance-aware verifier.  `nowMs` models the value of
`Date.now()` during the comparison. -/
structure TOptions where
  ignoreHeaders : List String := ["date", "content-length", "etag", "connection"]
  ignoreFields : List String := []
  tolerances : Tolerances := {}
  nowMs : Int := 1700000000000
deriving Repr

/-- The tolerance configuration installed by strict mode
(`setStrict(true)` / the `--strict` flag): zero drift, no UUID ignoring,
no array sorting, all field lists empty. -/
def strictTolerances : Tolerances :=
  ⟨0, false, false, [], [], []⟩

/-- Verifier options in strict comparison mode. -/
def strictTOptions (now : Int) : TOptions :=
  { tolerances := strictTolerances, nowMs := now }

/-- One ASCII hex digit (the `[0-9a-f]` class with the `i` flag). -/
def isHexDigit (c : Char) : Bool :=
  c.isDigit || ('a' ≤ c ∧ c ≤ 'f') || ('A' ≤ c ∧ c ≤ 'F')

/-- Consume exactly `n` hex digits. -/
def takeHex : Nat → List Char → Option (List Char)
  | 0, cs => some cs
  | n + 1, c :: cs => if isHexDigit c then takeHex n cs else none
  | _ + 1, [] => none

/-- Consume one optional hyphen (`-?`). -/
def skipDash : List Char → List Char
  | '-' :: cs => cs
  | cs => cs

/-- The verifier's UUID test on a string: the regex
`^[0-9a-f]{8}-?[0-9a-f]{4}-?[0-9a-f]{4}-?[0-9a-f]{4}-?[0-9a-f]{12}$/i`
(it subsumes the `isUUID.anyNonNil` disjunct, whose accepted strings all
match the regex). -/
def uuidPattern (s : String) : Bool :=
  (do
    let r1 ← takeHex 8 s.toList
    let r2 ← takeHex 4 (skipDash r1)
    let r3 ← takeHex 4 (skipDash r2)
    let r4 ← takeHex 4 (skipDash r3)
    let r5 ← takeHex 12 (skipDash r4)
    if r5.isEmpty then some () else none).isSome

/-- `isLikelyUUID`: the key must contain one of the configured UUID field
fragments (case-insensitively) and the value must be a string matching the
UUID shape. -/
def isLikelyUUID (t : Tolerances) (key : String) (value : Json) : Bool :=
  let isUuidField := t.uuidFields.any (fun f => jsIncludes (jsToLower key) (jsToLower f))
  match value with
  | .str s => isUuidField && uuidPattern s
  | _ => false

/-- Consume exactly `n` decimal digits. -/
def takeDigitsN : Nat → List Char → Option (List Char)
  | 0, cs => some cs
  | n + 1, c :: cs => if c.isDigit then takeDigitsN n cs else none
  | _ + 1, [] => none

/-- Consume one expected character. -/
def expectChar (c : Char) : List Char → Option (List Char)
  | d :: rest => if d = c then some rest else none
  | [] => none

/-- The tail `(.\d+)?Z?$` of the verifier's ISO pattern (note the
unescaped dot of the source regex: any character may introduce the
fraction). -/
def isoTail : List Char → Bool
  | [] => true
  | ['Z'] => true
  | _ :: rest =>
      let (ds, r) := takeDigits rest
      ¬ ds.isEmpty && (r.isEmpty || r = ['Z'])

/-- The verifier's ISO-8601 heuristic
`^\d{4}-\d{2}-\d{2}T\d{2}:\d{2}:\d{2}(.\d+)?Z?$`. -/
def isoDatePattern (s : String) : Bool :=
  match (do
      let r ← takeDigitsN 4 s.toList
      let r ← expectChar '-' r
      let r ← takeDigitsN 2 r
      let r ← expectChar '-' r
      let r ← takeDigitsN 2 r
      let r ← expectChar 'T' r
      let r ← takeDigitsN 2 r
      let r ← expectChar ':' r
      let r ← takeDigitsN 2 r
      let r ← expectChar ':' r
      takeDigitsN 2 r) with
  | some r => isoTail r
  | none => false

/-- `isLikelyTimestamp`: the last path segment names a timestamp field, or
a string looks ISO-8601, or a number lies in `(946684800000, now]`. -/
def isLikelyTimestamp (t : Tolerances) (now : Int) (path : String) (value : Json) :
    Bool :=
  let fieldName := (splitDot path).getLastD ""
  let isTimestampField := t.timestampFields.any
    (fun f => jsIncludes (jsToLower fieldName) (jsToLower f))
  match value with
  | .str s => isTimestampField || isoDatePattern s
  | .num n => isTimestampField || (n > 946684800000 && n ≤ now)
  | _ => false

/-- Consume exactly `n` decimal digits and return their value. -/
def readDigitsN (n : Nat) (cs : List Char) : Option (Nat × List Char) :=
  match takeDigitsN n cs with
  | none => none
  | some rest => some (digitsToNat (cs.take n), rest)

/-- Days from the civil epoch 1970-01-01 for a Gregorian date
(the standard days-from-civil computation, exact for the four-digit years
the ISO pattern admits). -/
def daysFromCivil (y m d : Int) : Int :=
  let y2 := y - (if m ≤ 2 then 1 else 0)
  let era := (if 0 ≤ y2 then y2 else y2 - 399) / 400
  let yoe := y2 - era * 400
  let doy := (153 * (m + (if m > 2 then -3 else 9)) + 2) / 5 + d - 1
  let doe := yoe * 365 + yoe / 4 - yoe / 100 + doy
  era * 146097 + doe - 719468

/-- The millisecond value of a fraction digit run (first three digits,
right-padded: `.5` is 500 ms). -/
def fracMs (ds : List Char) : Nat :=
  digitsToNat ((ds ++ ['0', '0', '0']).take 3)

/-- A model of `new Date(s).getTime()` for the ISO-8601 UTC forms the
verifier feeds it: `YYYY-MM-DDTHH:MM:SS`, optional `.fff` fraction,
optional trailing `Z`.  The model fixes the host timezone to UTC (a
`Z`-less string is read as UTC) and yields `none` — an invalid date — for
every other string. -/
def parseIsoUtc (s : String) : Option Int := do
  let (y, r) ← readDigitsN 4 s.toList
  let r ← expectChar '-' r
  let (mo, r) ← readDigitsN 2 r
  let r ← expectChar '-' r
  let (d, r) ← readDigitsN 2 r
  let r ← expectChar 'T' r
  let (h, r) ← readDigitsN 2 r
  let r ← expectChar ':' r
  let (mi, r) ← readDigitsN 2 r
  let r ← expectChar ':' r
  let (se, r) ← readDigitsN 2 r
  let (ms, r) ←
    (match r with
      | '.' :: r2 =>
          (match takeDigits r2 with
            | ([], _) => none
            | (ds, r3) => some (fracMs ds, r3))
      | _ => some (0, r))
  if (r = [] ∨ r = ['Z']) ∧ 1 ≤ mo ∧ mo ≤ 12 ∧ 1 ≤ d ∧ d ≤ 31 ∧ h ≤ 23 ∧ mi ≤ 59 ∧ se ≤ 59 then
    some (((((daysFromCivil (y : Int) (mo : Int) (d : Int)) * 24 + (h : Int)) * 60 +
      (mi : Int)) * 60 + (se : Int)) * 1000 + (ms : Int))
  else none

/-- `Number(s)` on the integral decimal strings the verifier can meet:
the empty (or all-whitespace) string is 0, an optional sign followed by
digits is their value, anything else is `NaN` (`none`). -/
def jsNumberParse (s : String) : Option Int :=
  let cs := (s.toList.dropWhile isJsonWs).reverse.dropWhile isJsonWs |>.reverse
  match cs with
  | [] => some 0
  | '-' :: rest =>
      (match takeDigits rest with
        | (ds, []) => if ds.isEmpty then none else some (-(digitsToNat ds : Int))
        | _ => none)
  | _ =>
      (match takeDigits cs with
        | (ds, []) => if ds.isEmpty then none else some (digitsToNat ds)
        | _ => none)

/-- `toTimestamp`: convert a value to epoch milliseconds.  A number below
4102444800 (year 2100 in seconds) is interpreted as seconds and scaled; a
string is parsed as a date and, failing that, as a number. -/
def toTimestamp : Json → Option Int
  | .num n => some (if n < 4102444800 then n * 1000 else n)
  | .str s =>
      (match parseIsoUtc s with
        | some t => some t
        | none =>
            (match jsNumberParse s with
              | some n => some (if n < 4102444800 then n * 1000 else n)
              | none => none))
  | _ => none

/-- `areTimestampsEquivalent`: both values must convert to a truthy
(non-`null`, non-zero) millisecond count whose difference stays within the
drift.  The source computes `Math.abs(t1 - t2) / 1000 <= drift`; for the
integral values involved this is exactly `|t1 - t2| ≤ drift * 1000`. -/
def areTimestampsEquivalent (t : Tolerances) (v1 v2 : Json) : Bool :=
  match toTimestamp v1, toTimestamp v2 with
  | some t1, some t2 =>
      if t1 = 0 ∨ t2 = 0 then false
      else |t1 - t2| ≤ t.timestampDriftSeconds * 1000
  | _, _ => false

/-- `areValuesEquivalent`: strictly equal values, timestamp-equivalent
values, or (when `ignoreUUIDs` is on) two UUID-shaped strings. -/
def areValuesEquivalent (o : TOptions) (path : String) (a b : Json) : Bool :=
  if a = b then true
  else if isLikelyTimestamp o.tolerances o.nowMs path a &&
      isLikelyTimestamp o.tolerances o.nowMs path b then
    areTimestampsEquivalent o.tolerances a b
  else if o.tolerances.ignoreUUIDs && a.jsTypeof == "string" && b.jsTypeof == "string" &&
      isLikelyUUID o.tolerances "" a && isLikelyUUID o.tolerances "" b then
    true
  else false

/-- `sortObjectKeys`: recursively rebuild every object with
lexicographically sorted keys (its recursion coincides with the
recorder's `normalizeForHashing`). -/
def sortObjectKeys : Json → Json :=
  normalizeForHashing

/-- Order used on primitive array elements: `null` sorts first, other
values by their `String(...)` rendering (`localeCompare` on the ASCII
strings involved coincides with code-unit order). -/
def primLE (a b : Json) : Prop :=
  if a = Json.null then True
  else if b = Json.null then False
  else jsPrimToString a ≤ jsPrimToString b

instance : DecidableRel primLE := fun a b => by
  unfold primLE
  infer_instance

/-- Order used on structured array elements: by the JSON rendering of the
key-sorted value. -/
def objLE (a b : Json) : Prop :=
  stringify (sortObjectKeys a) ≤ stringify (sortObjectKeys b)

instance : DecidableRel objLE := fun a b => by
  unfold objLE
  infer_instance

/-- `sortArray`: primitive-only arrays sort by rendered value with `null`
first, arrays containing structure sort by canonical JSON rendering. -/
def sortArray (array : List Json) : List Json :=
  if array.length ≤ 1 then array
  else if array.all (fun item => item.jsTypeof != "object" || item == Json.null) then
    List.insertionSort primLE array
  else
    List.insertionSort objLE array

/-- `shouldSortArray`: with no configured array fields every array is
sorted; otherwise only paths at or under a configured field. -/
def shouldSortArray (t : Tolerances) (path : String) : Bool :=
  t.arrayFields.isEmpty ||
    t.arrayFields.any (fun f =>
      path == f || jsStartsWith path (f ++ ".") || jsStartsWith path (f ++ "["))

namespace Tolerant

/-- `shouldIgnoreField` of the tolerance-aware verifier (same matching as
the base class). -/
def shouldIgnoreField (o : TOptions) (fieldPath : String) : Bool :=
  o.ignoreFields.any (fun pat => fieldPath == pat || jsStartsWith fieldPath (pat ++ "."))

mutual

/-- `normalizeForComparison` (tolerant, path-aware): arrays are normalized
elementwise (path extended with `[]`) and sorted when configured; object
members whose key and value look like a UUID are replaced by the `[UUID]`
sentinel (unless the path is ignored), other members recurse with the
dotted path. -/
def normalizeForComparison (o : TOptions) (path : String) : Json → Json
  | .arr xs =>
      let normalizedArray := normArr o (path ++ "[]") xs
      if o.tolerances.sortArrays && shouldSortArray o.tolerances path then
        .arr (sortArray normalizedArray)
      else .arr normalizedArray
  | .obj kvs => .obj (normFields o path kvs)
  | v => v

/-- Elementwise normalization of array elements. -/
def normArr (o : TOptions) (path : String) : List Json → List Json
  | [] => []
  | x :: xs => normalizeForComparison o path x :: normArr o path xs

/-- Entrywise normalization of object members. -/
def normFields (o : TOptions) (path : String) :
    List (String × Json) → List (String × Json)
  | [] => []
  | (k, v) :: rest =>
      let fullPath := if path = "" then k else path ++ "." ++ k
      (if o.tolerances.ignoreUUIDs && isLikelyUUID o.tolerances k v &&
          ¬ shouldIgnoreField o fullPath then
        (k, Json.str "[UUID]")
      else (k, normalizeForComparison o fullPath v)) :: normFields o path rest

end

/-- `shouldTolerateDifference`: edit records (plain or inside an
`A`-record) are tolerated when the two values are equivalent under the
configured tolerances. -/
def shouldTolerateDifference (o : TOptions) : Diff → Bool
  | .e p lhs rhs => areValuesEquivalent o (joinPath p) lhs rhs
  | .arrE p i lhs rhs => areValuesEquivalent o (arrayPathStr p i) lhs rhs
  | _ => false

/-- The `bodyDiffs` record of the tolerance-aware verifier. -/
structure TBodyDiffs where
  added : List AddedEntry
  removed : List RemovedEntry
  modified : List ModifiedEntry
  incompatible : List IncompatEntry
  tolerated : Nat
  total : Nat
deriving Repr, DecidableEq

/-- `compareResponseBodies` with tolerances: edge cases as in the base
class (primitive bodies compared through `areValuesEquivalent`), then both
bodies are normalized, diffed, and each difference is dropped if its path
is ignored, counted as tolerated if equivalent under tolerance, and
otherwise categorized by the base switch. -/
def compareResponseBodies (o : TOptions) (ob rb : Option Json) : TBodyDiffs :=
  if ob = none ∧ rb = none then ⟨[], [], [], [], 0, 0⟩
  else if jsTypeofOpt ob ≠ jsTypeofOpt rb then
    ⟨[], [], [],
      [⟨"/", "Type mismatch: " ++ jsTypeofOpt ob ++ " vs " ++ jsTypeofOpt rb,
        none, none, none⟩],
      0, 1⟩
  else
    match ob, rb with
    | some ov, some rv =>
        if Json.jsTypeof ov ≠ "object" ∨ ov = Json.null ∨ rv = Json.null then
          if areValuesEquivalent o "/" ov rv then ⟨[], [], [], [], 0, 0⟩
          else ⟨[], [], [⟨"/", ov, rv⟩], [], 0, 1⟩
        else
          let no := normalizeForComparison o "" ov
          let nr := normalizeForComparison o "" rv
          let notIgnored := (computeDiff [] no nr).filter
            (fun d => ¬ shouldIgnoreField o d.pathStr)
          let toleratedChanges :=
            (notIgnored.filter (fun d => shouldTolerateDifference o d)).length
          let kept := notIgnored.filter (fun d => ¬ shouldTolerateDifference o d)
          let added := kept.flatMap addedOfDiff
          let removed := kept.flatMap removedOfDiff
          let modified := kept.flatMap modifiedOfDiff
          let incompatible := kept.flatMap incompatOfDiff
          ⟨added, removed, modified, incompatible, toleratedChanges,
            added.length + removed.length + modified.length⟩
    | _, _ => ⟨[], [], [], [], 0, 0⟩

/-- The per-interaction comparison record of the tolerance-aware
verifier. -/
structure TComparison where
  statusMatch : Bool
  headerDiffs : HeaderDiffs
  bodyDiffs : TBodyDiffs
  isCompatible : Bool
deriving Repr, DecidableEq

/-- `compareResponses` of the tolerance-aware verifier: the response-level
normalization and the verdict formula of the base class, with the
tolerance-aware body comparison. -/
def compareResponses (o : TOptions) (original replayed : Response) : TComparison :=
  let bo : BaseOptions := ⟨o.ignoreHeaders, o.ignoreFields⟩
  let no := Base.normalizeForComparison bo original
  let nr := Base.normalizeForComparison bo replayed
  let statusMatch := no.statusCode == nr.statusCode
  let headerDiffs := compareHeaders no.headers nr.headers
  let bodyDiffs := compareResponseBodies o no.body nr.body
  ⟨statusMatch, headerDiffs, bodyDiffs,
    statusMatch && headerDiffs.added.isEmpty && headerDiffs.removed.isEmpty &&
      bodyDiffs.incompatible.isEmpty && bodyDiffs.removed.isEmpty⟩

/-- The session summary of the tolerance-aware verifier: the counters and
score of the base replay loop, extended by `updateVerificationSummary`
with the change totals and the effective score. -/
structure TSummary where
  total : Nat
  compatible : Nat
  incompatible : Nat
  errors : Nat
  compatibilityScore : ℚ
  totalChanges : Nat
  toleratedChanges : Nat
  effectiveChanges : Int
  effectiveCompatible : Nat
  effectiveCompatibilityScore : ℚ
deriving Repr, DecidableEq

/-- Differences counted for one interaction by
`updateVerificationSummary`: `headerDiffs.total + bodyDiffs.total`. -/
def interactionTotal (c : TComparison) : Nat :=
  c.headerDiffs.total + c.bodyDiffs.total

/-- Tolerated differences counted for one interaction:
`bodyDiffs.tolerated` (the header record carries no `tolerated` property,
so `headerDiffs.tolerated || 0` contributes 0). -/
def interactionTolerated (c : TComparison) : Nat :=
  c.bodyDiffs.tolerated

/-- The per-interaction `effectiveChanges = total - tolerated` set by
`updateVerificationSummary`.  Tolerated edit records are excluded from
`bodyDiffs.total`, so this difference can be negative; it is an integer. -/
def interactionEffective (c : TComparison) : Int :=
  (interactionTotal c : Int) - (interactionTolerated c : Int)

/-- The comparison attached to one interaction result: a successfully
replayed interaction carries `compareResponses`, an interaction whose
replay threw carries none. -/
def comparisonOf (o : TOptions) :
    Except String (Response × Response) → Option TComparison
  | .ok (orig, rep) => some (compareResponses o orig rep)
  | .error _ => none

/-- Whether an interaction outcome is an error. -/
def isErrorOutcome : Except String (Response × Response) → Bool
  | .error _ => true
  | .ok _ => false

/-- `replayAgainstContract` of the tolerance-aware verifier followed by
`updateVerificationSummary`, on the outcomes of one session (each
interaction yields either a pair of responses or the message of the
exception thrown while replaying it): the loop counts every interaction
into exactly one of compatible / incompatible / errors, then the summary
pass sums the per-interaction change totals and tolerated counts, and an
incompatible interaction with `effectiveChanges = 0` is added to
`effectiveCompatible`. -/
def sessionSummary (o : TOptions)
    (outcomes : List (Except String (Response × Response))) : TSummary :=
  let comparisons := outcomes.filterMap (comparisonOf o)
  let total := outcomes.length
  let compatible := (comparisons.filter (fun c => c.isCompatible)).length
  let incompatible := (comparisons.filter (fun c => ¬ c.isCompatible)).length
  let errors := (outcomes.filter isErrorOutcome).length
  let totalChanges := (comparisons.map interactionTotal).sum
  let toleratedChanges := (comparisons.map interactionTolerated).sum
  let toleratedInteractions := (comparisons.filter (fun c =>
    ¬ c.isCompatible ∧ interactionEffective c = 0)).length
  let effectiveCompatible :=
    if total > 0 then compatible + toleratedInteractions else 0
  ⟨total, compatible, incompatible, errors,
    Base.ratioScore compatible total,
    totalChanges, toleratedChanges,
    (totalChanges : Int) - (toleratedChanges : Int),
    effectiveCompatible,
    Base.ratioScore effectiveCompatible total⟩

end Tolerant

/-! ## Claim C3 -/

/-- The score expression is monotone in its numerator. -/
theorem ratioScore_le_add (n k t : Nat) :
    Base.ratioScore n t ≤ Base.ratioScore (n + k) t := by
  unfold Base.ratioScore
  by_cases h : t > 0
  · rw [if_pos h, if_pos h]
    have ht : (0:ℚ) < t := by exact_mod_cast h
    have hn : (n:ℚ) ≤ ((n + k : Nat) : ℚ) := by
      push_cast
      linarith [Nat.cast_nonneg (α := ℚ) k]
    gcongr
  · rw [if_neg h, if_neg h]

/-- In every tolerance configuration, the adjusted score never falls below
the raw score: `effectiveCompatible` only ever adds interactions to
`compatible`. -/
theorem sessionSummary_score_le (o : TOptions)
    (outcomes : List (Except String (Response × Response))) :
    (Tolerant.sessionSummary o outcomes).compatibilityScore ≤
      (Tolerant.sessionSummary o outcomes).effectiveCompatibilityScore := by
  unfold Tolerant.sessionSummary
  dsimp only
  by_cases h : outcomes.length > 0
  · rw [if_pos h]
    exact ratioScore_le_add _ _ _
  · rw [if_neg h]
    unfold Base.ratioScore
    rw [if_neg h, if_neg h]

/-- With zero drift, timestamp equivalence holds exactly when both values
convert to the same truthy (non-zero) millisecond count. -/
theorem strict_areTimestampsEquivalent_iff (a b : Json) :
    areTimestampsEquivalent strictTolerances a b = true ↔
      ∃ t : Int, toTimestamp a = some t ∧ toTimestamp b = some t ∧ t ≠ 0 := by
  unfold areTimestampsEquivalent
  rcases h1 : toTimestamp a with _ | t1 <;> rcases h2 : toTimestamp b with _ | t2 <;>
    simp only [h1, h2]
  · simp
  · simp
  · simp
  · by_cases hz : t1 = 0 ∨ t2 = 0
    · rw [if_pos hz]
      simp only [Bool.false_eq_true, false_iff]
      rintro ⟨t, ht1, ht2, htz⟩
      rw [Option.some_inj] at ht1 ht2
      omega
    · rw [if_neg hz]
      show (decide (|t1 - t2| ≤ strictTolerances.timestampDriftSeconds * 1000) = true) ↔ _
      have hd : strictTolerances.timestampDriftSeconds = 0 := rfl
      rw [hd]
      simp only [decide_eq_true_eq, Option.some_inj]
      constructor
      · intro hle
        have habs : t1 - t2 = 0 := by
          have h0 : |t1 - t2| = 0 := le_antisymm (by simpa using hle) (abs_nonneg _)
          exact abs_eq_zero.mp h0
        exact ⟨t1, rfl, by omega, by omega⟩
      · rintro ⟨t, rfl, rfl, htz⟩
        simp

/-- Under the strict configuration, `areValuesEquivalent` accepts exactly
the strictly equal pairs and the pairs of timestamp-looking values that
denote the same non-zero instant (the UUID branch is disabled). -/
theorem strict_areValuesEquivalent_iff (now : Int) (path : String) (a b : Json) :
    areValuesEquivalent (strictTOptions now) path a b = true ↔
      (a = b ∨ (isLikelyTimestamp strictTolerances now path a = true ∧
        isLikelyTimestamp strictTolerances now path b = true ∧
        ∃ t : Int, toTimestamp a = some t ∧ toTimestamp b = some t ∧ t ≠ 0)) := by
  unfold areValuesEquivalent
  by_cases hab : a = b
  · simp [hab]
  · rw [if_neg hab]
    have hto : (strictTOptions now).tolerances = strictTolerances := rfl
    have hn : (strictTOptions now).nowMs = now := rfl
    rw [hto, hn]
    by_cases hta : isLikelyTimestamp strictTolerances now path a = true
    · by_cases htb : isLikelyTimestamp strictTolerances now path b = true
      · rw [if_pos (by rw [hta, htb]; rfl)]
        rw [strict_areTimestampsEquivalent_iff]
        constructor
        · intro h
          exact Or.inr ⟨hta, htb, h⟩
        · rintro (h | ⟨_, _, h⟩)
          · exact absurd h hab
          · exact h
      · rw [if_neg (by simp [htb])]
        have hu : strictTolerances.ignoreUUIDs = false := rfl
        rw [if_neg (by simp [hu])]
        simp only [Bool.false_eq_true, false_iff]
        rintro (h | ⟨_, h, _⟩)
        · exact hab h
        · exact htb h
    · rw [if_neg (by simp [hta])]
      have hu : strictTolerances.ignoreUUIDs = false := rfl
      rw [if_neg (by simp [hu])]
      simp only [Bool.false_eq_true, false_iff]
      rintro (h | ⟨h, _, _⟩)
      · exact hab h
      · exact hta h

/-- A two-interaction strict-mode session: the first interaction's body
rewrites an ISO timestamp into an equal-instant spelling (tolerated even
at drift 0), the second differs only in status code. -/
def c3StrictOutcomes : List (Except String (Response × Response)) :=
  [ .ok (⟨200, [], some (Json.obj [("created", Json.str "2023-01-01T12:00:00Z")])⟩,
         ⟨200, [], some (Json.obj [("created", Json.str "2023-01-01T12:00:00.000Z")])⟩),
    .ok (⟨200, [], none⟩, ⟨404, [], none⟩) ]

/-- **C3, counterexample.**  In strict comparison mode (all tolerances
zeroed) a session can still report `toleratedChanges = 1` — the zero-drift
timestamp rule tolerates equal-instant ISO respellings, because the
ISO-shape heuristic fires even with an empty `timestampFields` list — and
its `effectiveCompatibilityScore` (100) differs from its
`compatibilityScore` (50): the status-only mismatch of the second
interaction has `effectiveChanges = 0`, so it is promoted to effectively
compatible.  This refutes both conjuncts of the claim. -/
theorem C3_strict_counterexample :
    (Tolerant.sessionSummary (strictTOptions 1700000000000) c3StrictOutcomes).toleratedChanges
        = 1 ∧
      (Tolerant.sessionSummary (strictTOptions 1700000000000)
            c3StrictOutcomes).effectiveCompatibilityScore ≠
        (Tolerant.sessionSummary (strictTOptions 1700000000000)
            c3StrictOutcomes).compatibilityScore := by
  have hdiff : computeDiff [] (Json.obj [("created", Json.str "2023-01-01T12:00:00Z")])
      (Json.obj [("created", Json.str "2023-01-01T12:00:00.000Z")]) =
      [Diff.e ["created"] (Json.str "2023-01-01T12:00:00Z")
        (Json.str "2023-01-01T12:00:00.000Z")] := by
    rw [computeDiff]
    norm_num [Json.realTypeOf, diffFieldsL, jsLookup, jsHasKey]
    rw [computeDiff]
    norm_num [Json.realTypeOf]
    · exact fun h => absurd h (by decide)
    · exact fun xs ys h _ => Json.noConfusion h
    · exact fun kvs1 kvs2 h _ => Json.noConfusion h
  have hEquiv : areValuesEquivalent (strictTOptions 1700000000000) "created"
      (Json.str "2023-01-01T12:00:00Z") (Json.str "2023-01-01T12:00:00.000Z") = true :=
    (strict_areValuesEquivalent_iff 1700000000000 "created" _ _).mpr
      (Or.inr ⟨by decide, by decide,
        ⟨1672574400000, by decide, by decide, by decide⟩⟩)
  have hj : joinPath ["created"] = "created" := by decide
  have hTol : Tolerant.shouldTolerateDifference (strictTOptions 1700000000000)
      (Diff.e ["created"] (Json.str "2023-01-01T12:00:00Z")
        (Json.str "2023-01-01T12:00:00.000Z")) = true := by
    show areValuesEquivalent (strictTOptions 1700000000000) (joinPath ["created"]) _ _ = true
    rw [hj]
    exact hEquiv
  have hnormA : Tolerant.normalizeForComparison (strictTOptions 1700000000000) ""
      (Json.obj [("created", Json.str "2023-01-01T12:00:00Z")]) =
      Json.obj [("created", Json.str "2023-01-01T12:00:00Z")] := by decide
  have hnormB : Tolerant.normalizeForComparison (strictTOptions 1700000000000) ""
      (Json.obj [("created", Json.str "2023-01-01T12:00:00.000Z")]) =
      Json.obj [("created", Json.str "2023-01-01T12:00:00.000Z")] := by decide
  have hbody1 : Tolerant.compareResponseBodies (strictTOptions 1700000000000)
      (some (Json.obj [("created", Json.str "2023-01-01T12:00:00Z")]))
      (some (Json.obj [("created", Json.str "2023-01-01T12:00:00.000Z")])) =
      ⟨[], [], [], [], 1, 0⟩ := by
    unfold Tolerant.compareResponseBodies
    rw [if_neg (by simp)]
    rw [if_neg (by decide)]
    dsimp only
    rw [if_neg (by decide)]
    rw [hnormA, hnormB, hdiff]
    have hIgn : ∀ p, Tolerant.shouldIgnoreField (strictTOptions 1700000000000) p = false :=
      fun p => rfl
    simp [hIgn, hTol, addedOfDiff, removedOfDiff, modifiedOfDiff, incompatOfDiff]
  have hcomp1 : Tolerant.compareResponses (strictTOptions 1700000000000)
      ⟨200, [], some (Json.obj [("created", Json.str "2023-01-01T12:00:00Z")])⟩
      ⟨200, [], some (Json.obj [("created", Json.str "2023-01-01T12:00:00.000Z")])⟩ =
      ⟨true, ⟨[], [], [], 0⟩, ⟨[], [], [], [], 1, 0⟩, true⟩ := by
    unfold Tolerant.compareResponses
    have hb1 : Base.normalizeForComparison ⟨(strictTOptions 1700000000000).ignoreHeaders,
        (strictTOptions 1700000000000).ignoreFields⟩
        ⟨200, [], some (Json.obj [("created", Json.str "2023-01-01T12:00:00Z")])⟩ =
        ⟨200, [], some (Json.obj [("created", Json.str "2023-01-01T12:00:00Z")])⟩ := by decide
    have hb2 : Base.normalizeForComparison ⟨(strictTOptions 1700000000000).ignoreHeaders,
        (strictTOptions 1700000000000).ignoreFields⟩
        ⟨200, [], some (Json.obj [("created", Json.str "2023-01-01T12:00:00.000Z")])⟩ =
        ⟨200, [], some (Json.obj [("created", Json.str "2023-01-01T12:00:00.000Z")])⟩ := by decide
    dsimp only
    rw [hb1, hb2]
    dsimp only
    rw [hbody1]
    decide
  have hcomp2 : Tolerant.compareResponses (strictTOptions 1700000000000)
      ⟨200, [], none⟩ ⟨404, [], none⟩ =
      ⟨false, ⟨[], [], [], 0⟩, ⟨[], [], [], [], 0, 0⟩, false⟩ := by decide
  have hcomps : c3StrictOutcomes.filterMap
      (Tolerant.comparisonOf (strictTOptions 1700000000000)) =
      [⟨true, ⟨[], [], [], 0⟩, ⟨[], [], [], [], 1, 0⟩, true⟩,
       ⟨false, ⟨[], [], [], 0⟩, ⟨[], [], [], [], 0, 0⟩, false⟩] := by
    simp only [c3StrictOutcomes, List.filterMap_cons, List.filterMap_nil,
      Tolerant.comparisonOf]
    rw [hcomp1, hcomp2]
  refine ⟨?_, ?_⟩
  · unfold Tolerant.sessionSummary
    dsimp only
    rw [hcomps]
    decide
  · have h1 : (Tolerant.sessionSummary (strictTOptions 1700000000000)
        c3StrictOutcomes).compatibilityScore = Base.ratioScore 1 2 := by
      unfold Tolerant.sessionSummary
      dsimp only
      rw [hcomps]
      congr 1
    have h2 : (Tolerant.sessionSummary (strictTOptions 1700000000000)
        c3StrictOutcomes).effectiveCompatibilityScore = Base.ratioScore 2 2 := by
      unfold Tolerant.sessionSummary
      dsimp only
      rw [hcomps]
      congr 1
    rw [h1, h2]
    unfold Base.ratioScore
    norm_num

/-- **C3.**  Corrected statement: in strict mode `toleratedChanges` need
not vanish and the effective score need not equal the raw score.  What
does hold for every session is: the raw score never exceeds the effective
score; `effectiveChanges = totalChanges − toleratedChanges` exactly; and
the only differences strict mode tolerates are value rewrites in which
both sides look like timestamps and denote the same non-zero instant
(strict equality aside) — strict mode disables the UUID rule but not the
ISO-shape timestamp heuristic. -/
theorem C3_strict_mode_properties (now : Int)
    (outcomes : List (Except String (Response × Response))) :
    ((Tolerant.sessionSummary (strictTOptions now) outcomes).compatibilityScore ≤
      (Tolerant.sessionSummary (strictTOptions now) outcomes).effectiveCompatibilityScore) ∧
    ((Tolerant.sessionSummary (strictTOptions now) outcomes).effectiveChanges =
      ((Tolerant.sessionSummary (strictTOptions now) outcomes).totalChanges : Int) -
      ((Tolerant.sessionSummary (strictTOptions now) outcomes).toleratedChanges : Int)) ∧
    (∀ path a b, areValuesEquivalent (strictTOptions now) path a b = true ↔
      (a = b ∨ (isLikelyTimestamp strictTolerances now path a = true ∧
        isLikelyTimestamp strictTolerances now path b = true ∧
        ∃ t : Int, toTimestamp a = some t ∧ toTimestamp b = some t ∧ t ≠ 0))) :=
  ⟨sessionSummary_score_le _ _, rfl, fun path a b => strict_areValuesEquivalent_iff now path a b⟩

/-! ## Claim C4 -/

/-- With `ignoreUUIDs` on, a single UUID-named field whose two values both
look like UUIDs is rewritten to the `[UUID]` sentinel on both sides before
diffing, so the body comparison reports no difference at all. -/
theorem uuid_field_body_eval (o : TOptions) (k s1 s2 : String)
    (hu : o.tolerances.ignoreUUIDs = true)
    (h1 : isLikelyUUID o.tolerances k (Json.str s1) = true)
    (h2 : isLikelyUUID o.tolerances k (Json.str s2) = true)
    (hi : Tolerant.shouldIgnoreField o k = false) :
    Tolerant.compareResponseBodies o (some (Json.obj [(k, Json.str s1)]))
      (some (Json.obj [(k, Json.str s2)])) = ⟨[], [], [], [], 0, 0⟩ := by
  have hnorm1 : Tolerant.normalizeForComparison o "" (Json.obj [(k, Json.str s1)]) =
      Json.obj [(k, Json.str "[UUID]")] := by
    simp [Tolerant.normalizeForComparison, Tolerant.normFields, hu, h1, hi]
  have hnorm2 : Tolerant.normalizeForComparison o "" (Json.obj [(k, Json.str s2)]) =
      Json.obj [(k, Json.str "[UUID]")] := by
    simp [Tolerant.normalizeForComparison, Tolerant.normFields, hu, h2, hi]
  have hdiff : computeDiff [] (Json.obj [(k, Json.str "[UUID]")])
      (Json.obj [(k, Json.str "[UUID]")]) = [] := by
    rw [computeDiff]
    simp [Json.realTypeOf, diffFieldsL, jsLookup, jsHasKey]
    rw [computeDiff]
    simp [Json.realTypeOf]
    · exact fun xs ys h _ => Json.noConfusion h
    · exact fun kvs1 kvs2 h _ => Json.noConfusion h
  unfold Tolerant.compareResponseBodies
  rw [if_neg (by simp)]
  rw [if_neg (by simp [jsTypeofOpt, Json.jsTypeof])]
  dsimp only
  rw [if_neg (by simp [Json.jsTypeof])]
  rw [hnorm1, hnorm2, hdiff]
  simp

/-- **C4.**  Corrected statement: with `ignoreUUIDs = true`, two bodies
that differ only in the value of a UUID-named field are normalized to the
same `[UUID]` sentinel *before* diffing, so the comparison reports **no
difference at all** — `toleratedChanges = 0` (not `≥ 1` as claimed),
every category is empty, and the interaction is plainly compatible
(`isCompatible = true`), not merely "effectively" compatible. -/
theorem C4_uuid_tolerance (o : TOptions) (k s1 s2 : String)
    (hu : o.tolerances.ignoreUUIDs = true)
    (h1 : isLikelyUUID o.tolerances k (Json.str s1) = true)
    (h2 : isLikelyUUID o.tolerances k (Json.str s2) = true)
    (hi : Tolerant.shouldIgnoreField o k = false) :
    Tolerant.compareResponseBodies o (some (Json.obj [(k, Json.str s1)]))
        (some (Json.obj [(k, Json.str s2)])) = ⟨[], [], [], [], 0, 0⟩ ∧
      (Tolerant.compareResponses o ⟨200, [], some (Json.obj [(k, Json.str s1)])⟩
        ⟨200, [], some (Json.obj [(k, Json.str s2)])⟩).isCompatible = true := by
  have hbody := uuid_field_body_eval o k s1 s2 hu h1 h2 hi
  refine ⟨hbody, ?_⟩
  unfold Tolerant.compareResponses
  have hb1 : Base.normalizeForComparison ⟨o.ignoreHeaders, o.ignoreFields⟩
      ⟨200, [], some (Json.obj [(k, Json.str s1)])⟩ =
      ⟨200, [], some (Json.obj [(k, Json.str s1)])⟩ := rfl
  have hb2 : Base.normalizeForComparison ⟨o.ignoreHeaders, o.ignoreFields⟩
      ⟨200, [], some (Json.obj [(k, Json.str s2)])⟩ =
      ⟨200, [], some (Json.obj [(k, Json.str s2)])⟩ := rfl
  dsimp only
  rw [hb1, hb2]
  dsimp only
  rw [hbody]
  decide

/-- **C4, counterexample.**  The claim predicts `toleratedChanges ≥ 1` for
an interaction whose bodies differ only in the value of the UUID field
`id`; with the tolerant configuration (`ignoreUUIDs = true`) the code
instead reports `tolerated = 0`, because both UUID values were replaced by
the `[UUID]` placeholder before `deep-diff` ran. -/
theorem C4_uuid_counterexample :
    ¬ (1 ≤ (Tolerant.compareResponseBodies {}
      (some (Json.obj [("id", Json.str "550e8400-e29b-41d4-a716-446655440000")]))
      (some (Json.obj [("id", Json.str "123e4567-e89b-12d3-a456-426614174000")]))).tolerated) := by
  have hbody := uuid_field_body_eval {} "id"
    "550e8400-e29b-41d4-a716-446655440000" "123e4567-e89b-12d3-a456-426614174000"
    rfl (by decide) (by decide) rfl
  rw [hbody]
  decide

/-- Witness for `C4_uuid_tolerance` at the claim's own example UUIDs. -/
theorem C4_uuid_tolerance_witness :
    Tolerant.compareResponseBodies {}
        (some (Json.obj [("id", Json.str "550e8400-e29b-41d4-a716-446655440000")]))
        (some (Json.obj [("id", Json.str "123e4567-e89b-12d3-a456-426614174000")])) =
        ⟨[], [], [], [], 0, 0⟩ ∧
      (Tolerant.compareResponses {}
        ⟨200, [], some (Json.obj [("id", Json.str "550e8400-e29b-41d4-a716-446655440000")])⟩
        ⟨200, [], some (Json.obj [("id", Json.str "123e4567-e89b-12d3-a456-426614174000")])⟩).isCompatible
        = true :=
  C4_uuid_tolerance {} "id" "550e8400-e29b-41d4-a716-446655440000"
    "123e4567-e89b-12d3-a456-426614174000" rfl (by decide) (by decide) rfl

/-! ## Claim C6 -/

/-- The bodies of the spec's S3 scenario: `description` is a string in the
recorded response and an object in the replayed one. -/
def c6DescOriginal : Json := Json.obj [("description", Json.str "x")]

/-- Replayed body of the S3 scenario. -/
def c6DescReplayed : Json := Json.obj [("short", Json.str "x")] |> fun v =>
  Json.obj [("description", v)]

/-- The `deep-diff` walk of the S3 bodies: one edit record at
`description`. -/
theorem c6_diff_eval : computeDiff [] c6DescOriginal c6DescReplayed =
    [Diff.e ["description"] (Json.str "x") (Json.obj [("short", Json.str "x")])] := by
  rw [c6DescOriginal, c6DescReplayed, computeDiff]
  norm_num [Json.realTypeOf, diffFieldsL, jsLookup, jsHasKey]
  rw [computeDiff]
  norm_num [Json.realTypeOf]
  · exact fun h => absurd h (by decide)
  · exact fun xs ys h _ => Json.noConfusion h
  · exact fun kvs1 kvs2 h _ => Json.noConfusion h

/-- Base body comparison of the S3 bodies: one modification promoted to a
type-change incompatibility. -/
theorem c6_base_body_eval :
    Base.compareResponseBodies {} (some c6DescOriginal) (some c6DescReplayed) =
      ⟨[], [], [⟨"description", Json.str "x", Json.obj [("short", Json.str "x")]⟩],
        [⟨"description", "Type changed from string to object", none, some (Json.str "x"),
          some (Json.obj [("short", Json.str "x")])⟩], 1⟩ := by
  unfold Base.compareResponseBodies
  rw [if_neg (by simp)]
  rw [if_neg (by decide)]
  dsimp only
  rw [if_neg (by decide)]
  rw [c6_diff_eval]
  have hIgn : ∀ p, shouldIgnoreField {} p = false := fun _ => rfl
  have hj : joinPath ["description"] = "description" := by decide
  simp [hIgn, addedOfDiff, removedOfDiff, modifiedOfDiff, incompatOfDiff, Json.jsTypeof, hj]

/-- The base verdict on the S3 responses is incompatible. -/
theorem c6_base_comp_eval :
    (Base.compareResponses {} ⟨200, [], some c6DescOriginal⟩
      ⟨200, [], some c6DescReplayed⟩).isCompatible = false := by
  unfold Base.compareResponses
  have hb1 : Base.normalizeForComparison {} ⟨200, [], some c6DescOriginal⟩ =
      ⟨200, [], some c6DescOriginal⟩ := rfl
  have hb2 : Base.normalizeForComparison {} ⟨200, [], some c6DescReplayed⟩ =
      ⟨200, [], some c6DescReplayed⟩ := rfl
  dsimp only
  rw [hb1, hb2]
  dsimp only
  rw [c6_base_body_eval]
  decide

/-- Tolerance-aware body comparison of the S3 bodies, for any
configuration under which the two bodies normalize to themselves, no path
is ignored, and the edit is not tolerated. -/
theorem c6_tol_body_eval (o : TOptions)
    (hnO : Tolerant.normalizeForComparison o "" c6DescOriginal = c6DescOriginal)
    (hnR : Tolerant.normalizeForComparison o "" c6DescReplayed = c6DescReplayed)
    (hIgn : ∀ p, Tolerant.shouldIgnoreField o p = false)
    (hTolF : Tolerant.shouldTolerateDifference o
      (Diff.e ["description"] (Json.str "x") (Json.obj [("short", Json.str "x")])) = false) :
    Tolerant.compareResponseBodies o (some c6DescOriginal) (some c6DescReplayed) =
      ⟨[], [], [⟨"description", Json.str "x", Json.obj [("short", Json.str "x")]⟩],
        [⟨"description", "Type changed from string to object", none, some (Json.str "x"),
          some (Json.obj [("short", Json.str "x")])⟩], 0, 1⟩ := by
  unfold Tolerant.compareResponseBodies
  rw [if_neg (by simp)]
  rw [if_neg (by decide)]
  dsimp only
  rw [if_neg (by decide)]
  rw [hnO, hnR, c6_diff_eval]
  have hj : joinPath ["description"] = "description" := by decide
  simp [hIgn, hTolF, addedOfDiff, removedOfDiff, modifiedOfDiff, incompatOfDiff,
    Json.jsTypeof, hj]

/-- The tolerance-aware verdict on the S3 responses is incompatible
whenever the edit is not tolerated. -/
theorem c6_tol_comp_eval (o : TOptions)
    (hnO : Tolerant.normalizeForComparison o "" c6DescOriginal = c6DescOriginal)
    (hnR : Tolerant.normalizeForComparison o "" c6DescReplayed = c6DescReplayed)
    (hIgn : ∀ p, Tolerant.shouldIgnoreField o p = false)
    (hTolF : Tolerant.shouldTolerateDifference o
      (Diff.e ["description"] (Json.str "x") (Json.obj [("short", Json.str "x")])) = false) :
    (Tolerant.compareResponses o ⟨200, [], some c6DescOriginal⟩
      ⟨200, [], some c6DescReplayed⟩).isCompatible = false := by
  unfold Tolerant.compareResponses
  have hb1 : Base.normalizeForComparison ⟨o.ignoreHeaders, o.ignoreFields⟩
      ⟨200, [], some c6DescOriginal⟩ = ⟨200, [], some c6DescOriginal⟩ := rfl
  have hb2 : Base.normalizeForComparison ⟨o.ignoreHeaders, o.ignoreFields⟩
      ⟨200, [], some c6DescReplayed⟩ = ⟨200, [], some c6DescReplayed⟩ := rfl
  dsimp only
  rw [hb1, hb2]
  dsimp only
  rw [c6_tol_body_eval o hnO hnR hIgn hTolF]
  decide

set_option maxRecDepth 2000 in
/-- **C6, counterexample.**  An array-to-object rewrite at field `a` is a
modification whose runtime categories differ (`realTypeOf` gives
`"array"` vs `"object"`), yet it is *not* promoted to an incompatibility —
the promotion tests JS `typeof`, which yields `"object"` for both — and
the interaction is judged compatible, contradicting "always promotes such
a difference" and "isCompatible = false". -/
theorem C6_array_object_counterexample :
    Json.realTypeOf (Json.arr [Json.num 1]) ≠ Json.realTypeOf (Json.obj [("b", Json.num 1)]) ∧
    (Base.compareResponseBodies {} (some (Json.obj [("a", Json.arr [Json.num 1])]))
        (some (Json.obj [("a", Json.obj [("b", Json.num 1)])]))).modified ≠ [] ∧
    (Base.compareResponseBodies {} (some (Json.obj [("a", Json.arr [Json.num 1])]))
        (some (Json.obj [("a", Json.obj [("b", Json.num 1)])]))).incompatible = [] ∧
    (Base.compareResponses {} ⟨200, [], some (Json.obj [("a", Json.arr [Json.num 1])])⟩
        ⟨200, [], some (Json.obj [("a", Json.obj [("b", Json.num 1)])])⟩).isCompatible
      = true := by
  decide

/-- **C6.**  Corrected statement: an edit record is promoted to an
incompatibility exactly when the JS `typeof` of the two values differ —
not the spec's six runtime categories: `typeof` collapses object,
sequence and null into `"object"`, so e.g. an array-to-object change is
never promoted.  When promotion does occur the reason is `"Type changed
from X to Y"` with X, Y the `typeof` strings, and on the S3 example
(`description`: string vs object) every mode — base, default-tolerant and
strict — reports the claimed reason and an incompatible verdict. -/
theorem C6_type_change_classification :
    (∀ (p : List String) (lhs rhs : Json),
        incompatOfDiff (Diff.e p lhs rhs) ≠ [] ↔ Json.jsTypeof lhs ≠ Json.jsTypeof rhs) ∧
    (∀ (xs : List Json) (kvs : List (String × Json)),
        Json.jsTypeof (Json.arr xs) = Json.jsTypeof (Json.obj kvs) ∧
        Json.jsTypeof Json.null = Json.jsTypeof (Json.obj kvs)) ∧
    ((Base.compareResponseBodies {} (some c6DescOriginal) (some c6DescReplayed)).incompatible =
      [⟨"description", "Type changed from string to object", none, some (Json.str "x"),
        some (Json.obj [("short", Json.str "x")])⟩]) ∧
    ((Base.compareResponses {} ⟨200, [], some c6DescOriginal⟩
        ⟨200, [], some c6DescReplayed⟩).isCompatible = false) ∧
    ((Tolerant.compareResponses {} ⟨200, [], some c6DescOriginal⟩
        ⟨200, [], some c6DescReplayed⟩).isCompatible = false) ∧
    ((Tolerant.compareResponses (strictTOptions 1700000000000)
        ⟨200, [], some c6DescOriginal⟩
        ⟨200, [], some c6DescReplayed⟩).isCompatible = false) := by
  refine ⟨?_, fun xs kvs => ⟨rfl, rfl⟩, ?_, c6_base_comp_eval, ?_, ?_⟩
  · intro p lhs rhs
    unfold incompatOfDiff
    by_cases h : Json.jsTypeof lhs ≠ Json.jsTypeof rhs
    · simp [h]
    · simp [h]
  · rw [c6_base_body_eval]
  · exact c6_tol_comp_eval {} (by decide) (by decide) (fun _ => rfl)
      (by
        show areValuesEquivalent {} (joinPath ["description"]) _ _ = false
        have hj : joinPath ["description"] = "description" := by decide
        rw [hj]
        decide)
  · exact c6_tol_comp_eval (strictTOptions 1700000000000) (by decide) (by decide)
      (fun _ => rfl)
      (by
        show areValuesEquivalent (strictTOptions 1700000000000) (joinPath ["description"]) _ _
          = false
        have hj : joinPath ["description"] = "description" := by decide
        rw [hj]
        decide)

/-! ## Claim C7 -/

/-- **C7.**  Corrected statement: timestamp equivalence requires, beyond
`|t1 − t2| ≤ timestampDriftSeconds × 1000` after conversion, that *both*
values convert successfully to a **non-zero** millisecond count: the
truthiness guard `if (!time1 || !time2) return false` also rejects the
epoch instant 0.  Numbers below 4102444800 are interpreted as seconds and
scaled by 1000, larger ones kept as milliseconds; an ISO-8601 string and
an epoch-milliseconds integer denoting the same (non-zero) instant are
equivalent. -/
theorem C7_timestamp_equivalence (t : Tolerances) (v1 v2 : Json) :
    (areTimestampsEquivalent t v1 v2 = true ↔
      ∃ t1 t2 : Int, toTimestamp v1 = some t1 ∧ toTimestamp v2 = some t2 ∧
        t1 ≠ 0 ∧ t2 ≠ 0 ∧ |t1 - t2| ≤ t.timestampDriftSeconds * 1000) ∧
    (∀ n : Int, n < 4102444800 → toTimestamp (Json.num n) = some (n * 1000)) ∧
    (∀ n : Int, ¬ n < 4102444800 → toTimestamp (Json.num n) = some n) ∧
    (areTimestampsEquivalent {} (Json.str "2023-01-01T12:00:00Z")
      (Json.num 1672574400000) = true) := by
  refine ⟨?_, ?_, ?_, by decide⟩
  · unfold areTimestampsEquivalent
    rcases h1 : toTimestamp v1 with _ | t1 <;> rcases h2 : toTimestamp v2 with _ | t2 <;>
      simp only [h1, h2]
    · simp
    · simp
    · simp
    · by_cases hz : t1 = 0 ∨ t2 = 0
      · rw [if_pos hz]
        simp only [Bool.false_eq_true, false_iff]
        rintro ⟨a, b, ha, hb, haz, hbz, _⟩
        rw [Option.some_inj] at ha hb
        omega
      · rw [if_neg hz]
        simp only [decide_eq_true_eq, Option.some_inj]
        constructor
        · intro hle
          exact ⟨t1, t2, rfl, rfl, by omega, by omega, hle⟩
        · rintro ⟨a, b, rfl, rfl, _, _, hle⟩
          exact hle
  · intro n hn
    show some (if n < 4102444800 then n * 1000 else n) = some (n * 1000)
    rw [if_pos hn]
  · intro n hn
    show some (if n < 4102444800 then n * 1000 else n) = some n
    rw [if_neg hn]

/-- Witness for `C7_timestamp_equivalence`: the ISO/epoch-ms pair of the
claim is equivalent, and an epoch-seconds number is scaled to
milliseconds. -/
theorem C7_timestamp_equivalence_witness :
    areTimestampsEquivalent {} (Json.str "2023-01-01T12:00:00Z")
        (Json.num 1672574400000) = true ∧
      toTimestamp (Json.num 1672574400) = some 1672574400000 :=
  ⟨(C7_timestamp_equivalence {} (Json.str "2023-01-01T12:00:00Z")
      (Json.num 1672574400000)).2.2.2,
    (C7_timestamp_equivalence {} Json.null Json.null).2.1 1672574400 (by decide)⟩

/-- **C7, counterexample.**  Two ISO spellings of the epoch instant
1970-01-01T00:00:00Z are both detected as timestamps, both convert to 0
milliseconds, and their difference (0) is within every drift — yet
`areTimestampsEquivalent` returns `false`, because `!time1` is true for
the converted value 0. -/
theorem C7_epoch_zero_counterexample :
    isLikelyTimestamp {} 1700000000000 "created" (Json.str "1970-01-01T00:00:00Z") = true ∧
    isLikelyTimestamp {} 1700000000000 "created" (Json.str "1970-01-01T00:00:00.000Z") = true ∧
    toTimestamp (Json.str "1970-01-01T00:00:00Z") = some 0 ∧
    toTimestamp (Json.str "1970-01-01T00:00:00.000Z") = some 0 ∧
    areTimestampsEquivalent {} (Json.str "1970-01-01T00:00:00Z")
      (Json.str "1970-01-01T00:00:00.000Z") = false := by
  decide

/-! ## Claims C8 and C9: the response template engine

`ResponseTemplate` (part_002) compiles a string template with
`handlebars.compile` and an object template with its own
`compileObjectTemplate`; `render(context)` calls the compiled function and
rethrows any error.  The handlebars library itself is a dependency, not
part of the repository; the model below embeds the fragment of its
documented semantics the templates of this project use: literal text,
`\x7b\x7bname\x7d\x7d` path interpolation (an unresolved path renders as
the empty string in non-strict mode), helper invocation (an expression
with arguments whose head names no registered helper throws
`Missing helper: "name"`), with the registered helpers kept abstract as an
environment of functions. -/

/-- One token of a compiled template: a literal character or a
`\x7b\x7b...\x7d\x7d` expression split into whitespace-separated parts. -/
inductive Tok where
  | lit (c : Char)
  | mustache (parts : List String)
deriving Repr, DecidableEq

/-- Scan the inside of a mustache up to the closing `\x7d\x7d`;
`none` on unterminated input (a handlebars parse error). -/
def scanMustache : List Char → Option (List Char × List Char)
  | '\x7d' :: '\x7d' :: rest => some ([], rest)
  | c :: rest => (scanMustache rest).map (fun p => (c :: p.1, p.2))
  | [] => none

/-- Split mustache contents on spaces, dropping empty words. -/
def splitSpacesAux : List Char → List Char → List String
  | acc, [] => if acc.isEmpty then [] else [String.mk acc.reverse]
  | acc, c :: rest =>
      if c = ' ' then
        (if acc.isEmpty then [] else [String.mk acc.reverse]) ++ splitSpacesAux [] rest
      else splitSpacesAux (c :: acc) rest

/-- Split mustache contents into expression parts. -/
def splitSpaces (cs : List Char) : List String :=
  splitSpacesAux [] cs

/-- Tokenize a template: every `\x7b\x7b` opens an expression, all other
characters are literals.  The fuel is instantiated with the input length,
which bounds the number of steps. -/
def parseTemplateAux : Nat → List Char → Option (List Tok)
  | _, [] => some []
  | 0, _ :: _ => none
  | fuel + 1, c :: rest =>
      if c = '\x7b' ∧ rest.head? = some '\x7b' then
        match scanMustache rest.tail with
        | some (content, rest2) =>
            (parseTemplateAux fuel rest2).map
              (fun ts => Tok.mustache (splitSpaces content) :: ts)
        | none => none
      else (parseTemplateAux fuel rest).map (fun ts => Tok.lit c :: ts)

/-- The registered helpers (`uuid`, `now`, `timestamp`, `random`,
`concat`, `if_eq` and any user-supplied ones), kept abstract: a name and
the function applied to the resolved arguments. -/
abbrev HelperEnv := List (String × (List (Option Json) → String))

instance {ε α : Type} [DecidableEq ε] [DecidableEq α] : DecidableEq (Except ε α) := fun a b =>
  match a, b with
  | .ok x, .ok y =>
      if h : x = y then isTrue (by rw [h]) else isFalse (fun hh => h (by injection hh))
  | .error x, .error y =>
      if h : x = y then isTrue (by rw [h]) else isFalse (fun hh => h (by injection hh))
  | .ok _, .error _ => isFalse (fun hh => Except.noConfusion hh)
  | .error _, .ok _ => isFalse (fun hh => Except.noConfusion hh)

/-- Walk a dotted path through the context object. -/
def lookupPathAux : Json → List String → Option Json
  | v, [] => some v
  | Json.obj kvs, seg :: rest =>
      match jsLookup kvs seg with
      | some v => lookupPathAux v rest
      | none => none
  | _, _ :: _ => none

/-- Resolve a `\x7b\x7bname\x7d\x7d` path against the render context. -/
def lookupPath (ctx : Json) (name : String) : Option Json :=
  lookupPathAux ctx (splitDot name)

mutual

/-- Handlebars output stringification of a resolved value (`null` and
`undefined` print as the empty string, arrays join their elements with
commas as JS `String(...)` does). -/
def hbStr : Json → String
  | Json.null => ""
  | Json.str s => s
  | Json.num n => toString n
  | Json.bool b => if b then "true" else "false"
  | Json.arr xs => hbJoin xs
  | Json.obj _ => "[object Object]"

/-- Comma-join of array elements. -/
def hbJoin : List Json → String
  | [] => ""
  | [x] => hbStr x
  | x :: y :: rest => hbStr x ++ "," ++ hbJoin (y :: rest)

end

/-- Stringification of an optional resolved value: a missing value prints
as the empty string. -/
def hbToString : Option Json → String
  | none => ""
  | some v => hbStr v

/-- Render one token.  A lone name is looked up as a helper first and
otherwise as a context path (missing paths render as `""`); an expression
with arguments requires a registered helper — otherwise handlebars throws
`Missing helper: "name"`. -/
def renderTok (helpers : HelperEnv) (ctx : Json) : Tok → Except String (List Char)
  | .lit c => .ok [c]
  | .mustache [] => .ok []
  | .mustache [name] =>
      match helpers.find? (fun p => p.1 == name) with
      | some p => .ok (p.2 []).toList
      | none => .ok (hbToString (lookupPath ctx name)).toList
  | .mustache (name :: arg :: args) =>
      match helpers.find? (fun p => p.1 == name) with
      | some p => .ok (p.2 ((arg :: args).map (lookupPath ctx))).toList
      | none => .error ("Missing helper: \x22" ++ name ++ "\x22")

/-- Render a token list, concatenating outputs; the first error aborts
the render (the thrown exception). -/
def renderToks (helpers : HelperEnv) (ctx : Json) : List Tok → Except String (List Char)
  | [] => .ok []
  | t :: ts =>
      match renderTok helpers ctx t, renderToks helpers ctx ts with
      | .ok s, .ok r => .ok (s ++ r)
      | .error e, _ => .error e
      | .ok _, .error e => .error e

/-- `compile(template)(context)` for a string template. -/
def renderString (helpers : HelperEnv) (ctx : Json) (s : String) : Except String String :=
  match parseTemplateAux (s.toList.length + 1) s.toList with
  | some toks => (renderToks helpers ctx toks).map String.mk
  | none => .error "Parse error"

mutual

/-- `compileObjectTemplate` composed with its returned render function, on
one member value: a string containing `\x7b\x7b` is compiled and
rendered, any other string (and every primitive) is kept as a static
value, objects recurse, and arrays — walked through `Object.entries` —
are rebuilt as objects keyed by their stringified indices. -/
def renderObjValue (helpers : HelperEnv) (ctx : Json) : Json → Except String Json
  | .str s =>
      if jsIncludes s "\x7b\x7b" then (renderString helpers ctx s).map Json.str
      else .ok (.str s)
  | .obj kvs =>
      match renderObjFields helpers ctx kvs with
      | .ok fs => .ok (.obj fs)
      | .error e => .error e
  | .arr xs =>
      match renderArrFields helpers ctx 0 xs with
      | .ok fs => .ok (.obj fs)
      | .error e => .error e
  | v => .ok v

/-- Memberwise compile-and-render of an object template. -/
def renderObjFields (helpers : HelperEnv) (ctx : Json) :
    List (String × Json) → Except String (List (String × Json))
  | [] => .ok []
  | (k, v) :: rest =>
      match renderObjValue helpers ctx v, renderObjFields helpers ctx rest with
      | .ok rv, .ok rr => .ok ((k, rv) :: rr)
      | .error e, _ => .error e
      | .ok _, .error e => .error e

/-- `Object.entries` of an array yields index-keyed pairs; the rebuilt
result is an object with keys `"0"`, `"1"`, …. -/
def renderArrFields (helpers : HelperEnv) (ctx : Json) (i : Nat) :
    List Json → Except String (List (String × Json))
  | [] => .ok []
  | x :: xs =>
      match renderObjValue helpers ctx x, renderArrFields helpers ctx (i + 1) xs with
      | .ok rv, .ok rr => .ok ((toString i, rv) :: rr)
      | .error e, _ => .error e
      | .ok _, .error e => .error e

end

/-- `ResponseTemplate.compile` followed by `render(context)`: a string
template goes through handlebars, an object (JS `typeof === 'object'`,
which includes arrays) through `compileObjectTemplate`; `null` also has
`typeof 'object'` and makes `Object.entries` throw; any other value
raises `Template must be a string or object`. -/
def templateRender (helpers : HelperEnv) (ctx : Json) : Json → Except String Json
  | .str s => (renderString helpers ctx s).map Json.str
  | .obj kvs =>
      match renderObjFields helpers ctx kvs with
      | .ok fs => .ok (.obj fs)
      | .error e => .error e
  | .arr xs =>
      match renderArrFields helpers ctx 0 xs with
      | .ok fs => .ok (.obj fs)
      | .error e => .error e
  | .null => .error "Cannot convert undefined or null to object"
  | _ => .error "Template must be a string or object"

mutual

/-- No string anywhere in the value contains a `\x7b\x7b` opener. -/
def noPlaceholder : Json → Bool
  | .str s => !(jsIncludes s "\x7b\x7b")
  | .obj kvs => noPlaceholderFields kvs
  | .arr xs => noPlaceholderList xs
  | _ => true

/-- `noPlaceholder` over object members. -/
def noPlaceholderFields : List (String × Json) → Bool
  | [] => true
  | (_, v) :: rest => noPlaceholder v && noPlaceholderFields rest

/-- `noPlaceholder` over array elements. -/
def noPlaceholderList : List Json → Bool
  | [] => true
  | x :: xs => noPlaceholder x && noPlaceholderList xs

end

mutual

/-- No array occurs anywhere in the value. -/
def arrayFree : Json → Bool
  | .arr _ => false
  | .obj kvs => arrayFreeFields kvs
  | _ => true

/-- `arrayFree` over object members. -/
def arrayFreeFields : List (String × Json) → Bool
  | [] => true
  | (_, v) :: rest => arrayFree v && arrayFreeFields rest

end

/-- On input without a `\x7b\x7b` opener, the tokenizer produces one
literal token per character. -/
theorem parse_no_mustache :
    ∀ (cs : List Char) (fuel : Nat), cs.length ≤ fuel →
      ¬ (['\x7b', '\x7b'] <:+: cs) →
      parseTemplateAux fuel cs = some (cs.map Tok.lit) := by
  intro cs
  induction cs with
  | nil =>
    intro fuel _ _
    cases fuel <;> rfl
  | cons c rest ih =>
    intro fuel hlen hinf
    cases fuel with
    | zero => simp at hlen
    | succ f =>
      have hnot : ¬ (c = '\x7b' ∧ rest.head? = some '\x7b') := by
        rintro ⟨rfl, hh⟩
        cases rest with
        | nil => simp at hh
        | cons d rest2 =>
          simp only [List.head?] at hh
          rw [Option.some_inj] at hh
          subst hh
          exact hinf ⟨[], rest2, rfl⟩
      rw [parseTemplateAux, if_neg hnot]
      have hrest : ¬ (['\x7b', '\x7b'] <:+: rest) := by
        intro h
        rcases h with ⟨s, t, hst⟩
        exact hinf ⟨c :: s, t, by rw [← hst]; simp⟩
      rw [ih f (by simpa using hlen) hrest]
      rfl

/-- Literal tokens render to their own characters. -/
theorem renderToks_lits (helpers : HelperEnv) (ctx : Json) :
    ∀ cs : List Char, renderToks helpers ctx (cs.map Tok.lit) = .ok cs := by
  intro cs
  induction cs with
  | nil => rfl
  | cons c rest ih =>
    rw [List.map_cons, renderToks, ih]
    rfl

/-- A string template without a `\x7b\x7b` opener renders to itself. -/
theorem renderString_const (helpers : HelperEnv) (ctx : Json) (s : String)
    (h : jsIncludes s "\x7b\x7b" = false) :
    renderString helpers ctx s = .ok s := by
  unfold renderString
  have hinf : ¬ (['\x7b', '\x7b'] <:+: s.toList) := by
    intro hi
    rw [jsIncludes] at h
    simp only [decide_eq_false_iff_not] at h
    exact h hi
  rw [parse_no_mustache s.toList (s.toList.length + 1) (by omega) hinf]
  dsimp only
  rw [renderToks_lits]
  rfl

/-- Object-template members without placeholders or arrays render to
themselves (strong induction on size). -/
theorem renderObjValue_const_aux (helpers : HelperEnv) (ctx : Json) :
    ∀ n : Nat,
      (∀ v : Json, sizeOf v ≤ n → noPlaceholder v = true → arrayFree v = true →
        renderObjValue helpers ctx v = .ok v) ∧
      (∀ kvs : List (String × Json), sizeOf kvs ≤ n → noPlaceholderFields kvs = true →
        arrayFreeFields kvs = true → renderObjFields helpers ctx kvs = .ok kvs) := by
  intro n
  induction n using Nat.strong_induction_on with
  | _ n ih =>
    constructor
    · intro v hs hnp haf
      match v with
      | .null => rfl
      | .bool b => rfl
      | .num m => rfl
      | .str s =>
          rw [renderObjValue]
          rw [noPlaceholder] at hnp
          simp only [Bool.not_eq_eq_eq_not, Bool.not_true] at hnp
          rw [if_neg (by rw [hnp]; exact fun h => Bool.noConfusion h)]
      | .arr xs =>
          rw [arrayFree] at haf
          exact absurd haf (by decide)
      | .obj kvs =>
          rw [renderObjValue]
          have hsz : sizeOf kvs < n := by
            have := Json.obj.sizeOf_spec kvs
            omega
          rw [noPlaceholder] at hnp
          rw [arrayFree] at haf
          rw [(ih (sizeOf kvs) hsz).2 kvs le_rfl hnp haf]
    · intro kvs hs hnp haf
      match kvs with
      | [] => rfl
      | (k, v) :: rest =>
          rw [renderObjFields]
          rw [noPlaceholderFields, Bool.and_eq_true] at hnp
          rw [arrayFreeFields, Bool.and_eq_true] at haf
          have hsv : sizeOf v < n := by
            have h1 : sizeOf ((k, v) :: rest) = 1 + sizeOf (k, v) + sizeOf rest :=
              List.cons.sizeOf_spec _ _
            have h2 : sizeOf (k, v) = 1 + sizeOf k + sizeOf v := Prod.mk.sizeOf_spec _ _
            omega
          have hsr : sizeOf rest < n := by
            have h1 : sizeOf ((k, v) :: rest) = 1 + sizeOf (k, v) + sizeOf rest :=
              List.cons.sizeOf_spec _ _
            omega
          rw [(ih (sizeOf v) hsv).1 v le_rfl hnp.1 haf.1,
            (ih (sizeOf rest) hsr).2 rest le_rfl hnp.2 haf.2]

/-- **C9.**  Corrected statement: a template value with no
`\x7b\x7b...\x7d\x7d` placeholder renders to itself for every context and
helper set **provided it is a string or an object containing no array**:
arrays (at top level or nested) are walked through `Object.entries` and
rebuilt as objects keyed `"0"`, `"1"`, …, so a template containing an
array never renders to itself. -/
theorem C9_template_idempotence (helpers : HelperEnv) (ctx : Json) (t : Json)
    (hshape : (∃ s, t = Json.str s) ∨ (∃ kvs, t = Json.obj kvs))
    (hnp : noPlaceholder t = true) (haf : arrayFree t = true) :
    templateRender helpers ctx t = .ok t := by
  rcases hshape with ⟨s, rfl⟩ | ⟨kvs, rfl⟩
  · rw [templateRender]
    rw [noPlaceholder] at hnp
    simp only [Bool.not_eq_eq_eq_not, Bool.not_true] at hnp
    rw [renderString_const helpers ctx s hnp]
    rfl
  · rw [templateRender]
    rw [noPlaceholder] at hnp
    rw [arrayFree] at haf
    rw [(renderObjValue_const_aux helpers ctx (sizeOf kvs)).2 kvs le_rfl hnp haf]

/-- Witness for `C9_template_idempotence` at a nested constant object
template. -/
theorem C9_template_idempotence_witness :
    templateRender [] (Json.obj []) (Json.obj [("a", Json.str "x"),
        ("b", Json.obj [("c", Json.num 1)])]) =
      .ok (Json.obj [("a", Json.str "x"), ("b", Json.obj [("c", Json.num 1)])]) :=
  C9_template_idempotence [] (Json.obj []) _ (Or.inr ⟨_, rfl⟩) (by decide) (by decide)

/-- **C9, counterexample.**  The placeholder-free template
`\x7b "tags": ["a"] \x7d` renders to `\x7b "tags": \x7b "0": "a" \x7d \x7d`,
not to itself: `compileObjectTemplate` recurses into the array via
`Object.entries` and its render function rebuilds a plain object. -/
theorem C9_array_counterexample :
    noPlaceholder (Json.obj [("tags", Json.arr [Json.str "a"])]) = true ∧
    templateRender [] (Json.obj []) (Json.obj [("tags", Json.arr [Json.str "a"])]) =
      .ok (Json.obj [("tags", Json.obj [("0", Json.str "a")])]) ∧
    (Json.obj [("tags", Json.obj [("0", Json.str "a")])] : Json) ≠
      Json.obj [("tags", Json.arr [Json.str "a"])] := by
  decide

/-- The error counter of the replay loop counts exactly the interactions
whose replay threw. -/
theorem errors_count_aux (opts : BaseOptions) :
    ∀ (outcomes : List (Except String (Response × Response))) (acc : Base.Counts),
      (outcomes.foldl (Base.stepCounts opts) acc).errors =
        acc.errors + (outcomes.filter Tolerant.isErrorOutcome).length := by
  intro outcomes
  induction outcomes with
  | nil => intro acc; simp
  | cons out rest ih =>
    intro acc
    rw [List.foldl_cons, ih]
    cases out with
    | error e =>
        simp [Base.stepCounts, Tolerant.isErrorOutcome, List.filter]
        omega
    | ok pr =>
        obtain ⟨o, r⟩ := pr
        by_cases hc : (Base.compareResponses opts o r).isCompatible
        · simp [Base.stepCounts, hc, Tolerant.isErrorOutcome, List.filter]
        · simp [Base.stepCounts, hc, Tolerant.isErrorOutcome, List.filter]

/-- **C8.**  Corrected statement: an expression with arguments whose head
names no registered helper makes the render throw
`Missing helper: "name"` — such an error propagates and is counted under
`summary.errors` (which counts exactly the interactions whose replay
threw).  A *bare* unresolved placeholder, however, does **not** produce a
RenderError: handlebars silently renders it as the empty string (so the
literal placeholder text is indeed never emitted, but no error is
recorded either). -/
theorem C8_render_error_behavior (helpers : HelperEnv) (ctx : Json)
    (name arg : String) (args : List String)
    (hname : helpers.find? (fun p => p.1 == name) = none)
    (hpath : lookupPath ctx name = none) :
    renderTok helpers ctx (Tok.mustache (name :: arg :: args)) =
      .error ("Missing helper: \x22" ++ name ++ "\x22") ∧
    renderTok helpers ctx (Tok.mustache [name]) = .ok [] ∧
    renderString [] (Json.obj []) "\x7b\x7bmissing concat\x7d\x7d" =
      .error "Missing helper: \x22missing\x22" ∧
    renderString [] (Json.obj []) "\x7b\x7bmissing\x7d\x7d" = .ok "" ∧
    (∀ (opts : BaseOptions) (outcomes : List (Except String (Response × Response))),
      (Base.replayCounts opts outcomes).errors =
        (outcomes.filter Tolerant.isErrorOutcome).length) := by
  refine ⟨?_, ?_, by decide, by decide, ?_⟩
  · rw [renderTok, hname]
  · rw [renderTok, hname, hpath]
    dsimp only
    rfl
  · intro opts outcomes
    rw [Base.replayCounts, errors_count_aux]
    simp

/-- Witness for `C8_render_error_behavior` with an empty helper
environment and empty context. -/
theorem C8_render_error_behavior_witness :
    renderTok [] (Json.obj []) (Tok.mustache ["missing", "x"]) =
      .error "Missing helper: \x22missing\x22" ∧
    renderTok [] (Json.obj []) (Tok.mustache ["missing"]) = .ok [] :=
  ⟨(C8_render_error_behavior [] (Json.obj []) "missing" "x" [] rfl rfl).1,
    (C8_render_error_behavior [] (Json.obj []) "missing" "x" [] rfl rfl).2.1⟩

/-- **C8, counterexample.**  Rendering the template
`\x7b\x7bmissing\x7d\x7d` against an empty context succeeds with the
empty string: an unresolved bare placeholder produces no RenderError for
the interaction, contradicting the claim that it must. -/
theorem C8_unresolved_placeholder_counterexample :
    renderString [] (Json.obj []) "\x7b\x7bmissing\x7d\x7d" = .ok "" ∧
    ∀ e, renderString [] (Json.obj []) "\x7b\x7bmissing\x7d\x7d" ≠ .error e := by
  have h : renderString [] (Json.obj []) "\x7b\x7bmissing\x7d\x7d" = .ok "" := by decide
  refine ⟨h, ?_⟩
  intro e he
  rw [h] at he
  exact Except.noConfusion he
